import Mathlib

/-!
# QtWebEngine core API glue: fullscreen requests, URL request jobs, request interception

A shallow embedding of

* `src/core/api/qwebenginefullscreenrequest.cpp`
* `src/core/api/qwebengineurlrequestjob.cpp`
* `tests/auto/core/qwebengineurlrequestinterceptor/tst_qwebengineurlrequestinterceptor.cpp`

Methods with side effects are written in state-passing style: a C++ member
function that acts on some mutable surroundings of type `σ` becomes a Lean
function `σ → σ` (for `void`) or `σ → α × σ` (when it returns a value).
-/

namespace QtWebEngine

/-! ## Qt base types -/

/-- Parsed URL (QUrl of QtCore): the scheme, as returned by `scheme()`, and the
remainder of the URL after the scheme. `QUrl::operator==` is equality of the
parsed components. -/
structure QUrl where
  scheme : String
  rest : String
deriving DecidableEq, Repr

/-- Byte string (QByteArray of QtCore); comparison is byte-wise. -/
abbrev QByteArray := String

/-- Handle of an I/O device (the address held by a `QIODevice *`). -/
abbrev QIODevice := Nat

/-- The default-constructed and the empty-string URL, `QUrl("")`. -/
def QUrl.empty : QUrl := ⟨"", ""⟩

/-! ## qwebenginefullscreenrequest.cpp -/

/-- The private data of a fullscreen request: three `const` members. The
callback `std::function<void (bool)>` acts on the state `σ` of the embedding
host. -/
structure QWebEngineFullScreenRequestPrivate (σ : Type) where
  m_origin : QUrl
  m_toggleOn : Bool
  m_setFullScreenCallback : Bool → σ → σ

/-- The public value class: a shared pointer to the private data. -/
structure QWebEngineFullScreenRequest (σ : Type) where
  d_ptr : QWebEngineFullScreenRequestPrivate σ

/-- Constructor `QWebEngineFullScreenRequest(origin, toggleOn, setFullScreenCallback)`. -/
def QWebEngineFullScreenRequest.new {σ : Type} (origin : QUrl) (toggleOn : Bool)
    (setFullScreenCallback : Bool → σ → σ) : QWebEngineFullScreenRequest σ :=
  ⟨⟨origin, toggleOn, setFullScreenCallback⟩⟩

/-- Method `reject()`: `d_ptr->m_setFullScreenCallback(!d_ptr->m_toggleOn)`. -/
def QWebEngineFullScreenRequest.reject {σ : Type} (self : QWebEngineFullScreenRequest σ)
    (w : σ) : σ :=
  self.d_ptr.m_setFullScreenCallback (!self.d_ptr.m_toggleOn) w

/-- Method `accept()`: `d_ptr->m_setFullScreenCallback(d_ptr->m_toggleOn)`. -/
def QWebEngineFullScreenRequest.accept {σ : Type} (self : QWebEngineFullScreenRequest σ)
    (w : σ) : σ :=
  self.d_ptr.m_setFullScreenCallback self.d_ptr.m_toggleOn w

/-- Method `toggleOn() const`: returns `d_ptr->m_toggleOn`; the host state is
passed through untouched. -/
def QWebEngineFullScreenRequest.toggleOn {σ : Type} (self : QWebEngineFullScreenRequest σ)
    (w : σ) : Bool × σ :=
  (self.d_ptr.m_toggleOn, w)

/-- Method `origin() const`: returns `d_ptr->m_origin`; the host state is
passed through untouched. -/
def QWebEngineFullScreenRequest.origin {σ : Type} (self : QWebEngineFullScreenRequest σ)
    (w : σ) : QUrl × σ :=
  (self.d_ptr.m_origin, w)

/-- The two resolving member functions a signal handler can call. -/
inductive Resolution where
  | accept
  | reject
deriving DecidableEq, Repr

/-- One call of `accept()` or `reject()` on the request. -/
def QWebEngineFullScreenRequest.resolve {σ : Type} (self : QWebEngineFullScreenRequest σ)
    (c : Resolution) (w : σ) : σ :=
  match c with
  | Resolution.accept => self.accept w
  | Resolution.reject => self.reject w

/-- A sequence of `accept()` and `reject()` calls on one request, in order. -/
def QWebEngineFullScreenRequest.resolveAll {σ : Type} (self : QWebEngineFullScreenRequest σ)
    (cs : List Resolution) (w : σ) : σ :=
  cs.foldl (fun acc c => self.resolve c acc) w

/-- A callback that appends every value it is invoked with to a log; the host
state is the list of values received so far, oldest first. -/
def recordCall (b : Bool) (log : List Bool) : List Bool :=
  log ++ [b]

/-! ## Qt containers -/

/-- Associative container (QMap and QHash of QtCore), as the list of its entries
in iteration order. Keys are unique in every map built from `QMap.nil` with
`QMap.insert`. -/
structure QMap (κ ν : Type) where
  entries : List (κ × ν)
deriving DecidableEq, Repr

/-- The default-constructed, empty map. -/
def QMap.nil {κ ν : Type} : QMap κ ν := ⟨[]⟩

/-- Member `empty()`: whether the map has no entry. -/
def QMap.isEmpty {κ ν : Type} (m : QMap κ ν) : Bool :=
  m.entries.isEmpty

/-- Member `value(key)`: the value stored under `key`, if any. -/
def QMap.value {κ ν : Type} [DecidableEq κ] (m : QMap κ ν) (key : κ) : Option ν :=
  (m.entries.find? (fun e => decide (e.1 = key))).map Prod.snd

/-- Insertion into an entry list: the value of an existing key is replaced,
a new key is added. -/
def insertEntry {κ ν : Type} [DecidableEq κ] : List (κ × ν) → κ → ν → List (κ × ν)
  | [], key, v => [(key, v)]
  | (k1, v1) :: rest, key, v =>
    if k1 = key then (key, v) :: rest else (k1, v1) :: insertEntry rest key v

/-- Member `insert(key, value)`. -/
def QMap.insert {κ ν : Type} [DecidableEq κ] (m : QMap κ ν) (key : κ) (v : ν) : QMap κ ν :=
  ⟨insertEntry m.entries key v⟩

/-- Set container (QSet of QtCore), as the list of its distinct elements. -/
structure QSet (α : Type) where
  elems : List α
deriving DecidableEq, Repr

/-- The default-constructed, empty set. -/
def QSet.nil {α : Type} : QSet α := ⟨[]⟩

/-- Member `contains(x)`. -/
def QSet.contains {α : Type} [DecidableEq α] (s : QSet α) (x : α) : Bool :=
  decide (x ∈ s.elems)

/-- Member `insert(x)`: adds `x` unless it is already present. -/
def QSet.insert {α : Type} [DecidableEq α] (s : QSet α) (x : α) : QSet α :=
  if x ∈ s.elems then s else ⟨s.elems ++ [x]⟩

/-- Subscript `map[key]` on a map of sets: the stored set, or a
default-constructed one when the key is absent. -/
def QMap.at {κ α : Type} [DecidableEq κ] (m : QMap κ (QSet α)) (key : κ) : QSet α :=
  (m.value key).getD QSet.nil

/-! ## qwebengineurlrequestjob.cpp -/

/-- The enum `QWebEngineUrlRequestJob::Error`, with the six enumerators the
class documents. -/
inductive QWebEngineUrlRequestJob.Error where
  | NoError
  | UrlNotFound
  | UrlInvalid
  | RequestAborted
  | RequestDenied
  | RequestFailed
deriving DecidableEq, Repr

/-- The numbering of the enumerators by their documented order, starting at 0. -/
def QWebEngineUrlRequestJob.Error.ordinal : QWebEngineUrlRequestJob.Error → Int
  | QWebEngineUrlRequestJob.Error.NoError => 0
  | QWebEngineUrlRequestJob.Error.UrlNotFound => 1
  | QWebEngineUrlRequestJob.Error.UrlInvalid => 2
  | QWebEngineUrlRequestJob.Error.RequestAborted => 3
  | QWebEngineUrlRequestJob.Error.RequestDenied => 4
  | QWebEngineUrlRequestJob.Error.RequestFailed => 5

/-- The member functions of `URLRequestCustomJobDelegate` that the job calls.
The class is declared in `net/url_request_custom_job_delegate.h`, which is not
among the sources, so its members are parameters here. `δ` is the state behind
the delegate pointer; the four accessors are `const` members and only read it.
A value of the enum `URLRequestCustomJobDelegate::Error` is represented by its
underlying integer. -/
structure URLRequestCustomJobDelegate (δ : Type) where
  url : δ → QUrl
  method : δ → QByteArray
  initiator : δ → QUrl
  requestHeaders : δ → QMap QByteArray QByteArray
  reply : QByteArray → QIODevice → δ → δ
  fail : Int → δ → δ
  redirect : QUrl → δ → δ

/-- The job: its only member is the pointer `d_ptr` to the delegate; it is set
by the constructor and never reassigned. -/
structure QWebEngineUrlRequestJob (δ : Type) where
  d_ptr : URLRequestCustomJobDelegate δ

/-- Method `requestUrl() const`: `return d_ptr->url()`. -/
def QWebEngineUrlRequestJob.requestUrl {δ : Type} (self : QWebEngineUrlRequestJob δ)
    (s : δ) : QUrl × δ :=
  (self.d_ptr.url s, s)

/-- Method `requestMethod() const`: `return d_ptr->method()`. -/
def QWebEngineUrlRequestJob.requestMethod {δ : Type} (self : QWebEngineUrlRequestJob δ)
    (s : δ) : QByteArray × δ :=
  (self.d_ptr.method s, s)

/-- Method `initiator() const`: `return d_ptr->initiator()`. -/
def QWebEngineUrlRequestJob.initiator {δ : Type} (self : QWebEngineUrlRequestJob δ)
    (s : δ) : QUrl × δ :=
  (self.d_ptr.initiator s, s)

/-- Method `requestHeaders() const`: `return d_ptr->requestHeaders()`. -/
def QWebEngineUrlRequestJob.requestHeaders {δ : Type} (self : QWebEngineUrlRequestJob δ)
    (s : δ) : QMap QByteArray QByteArray × δ :=
  (self.d_ptr.requestHeaders s, s)

/-- Method `reply(contentType, device)`: `d_ptr->reply(contentType, device)`. -/
def QWebEngineUrlRequestJob.reply {δ : Type} (self : QWebEngineUrlRequestJob δ)
    (contentType : QByteArray) (device : QIODevice) (s : δ) : δ :=
  self.d_ptr.reply contentType device s

/-- Method `fail(r)`: `d_ptr->fail((URLRequestCustomJobDelegate::Error)r)`. The
cast between the two enum types keeps the underlying value; `underlying` gives
the value of each enumerator of `QWebEngineUrlRequestJob::Error` (declared in
the header, which is not among the sources). -/
def QWebEngineUrlRequestJob.fail {δ : Type} (self : QWebEngineUrlRequestJob δ)
    (underlying : QWebEngineUrlRequestJob.Error → Int) (r : QWebEngineUrlRequestJob.Error) (s : δ) : δ :=
  self.d_ptr.fail (underlying r) s

/-- Method `redirect(url)`: `d_ptr->redirect(url)`. -/
def QWebEngineUrlRequestJob.redirect {δ : Type} (self : QWebEngineUrlRequestJob δ)
    (url : QUrl) (s : δ) : δ :=
  self.d_ptr.redirect url s

/-- One call of a read accessor of the job. -/
inductive JobQuery where
  | requestUrl
  | requestMethod
  | initiator
  | requestHeaders
deriving DecidableEq, Repr

/-- The state left behind by one accessor call (its return value dropped). -/
def QWebEngineUrlRequestJob.query {δ : Type} (self : QWebEngineUrlRequestJob δ)
    (q : JobQuery) (s : δ) : δ :=
  match q with
  | JobQuery.requestUrl => (self.requestUrl s).2
  | JobQuery.requestMethod => (self.requestMethod s).2
  | JobQuery.initiator => (self.initiator s).2
  | JobQuery.requestHeaders => (self.requestHeaders s).2

/-- A sequence of accessor calls, in order. -/
def QWebEngineUrlRequestJob.queryAll {δ : Type} (self : QWebEngineUrlRequestJob δ)
    (qs : List JobQuery) (s : δ) : δ :=
  qs.foldl (fun acc q => self.query q acc) s

/-- One call of a resolving member function of the job, with its arguments. -/
inductive JobCall where
  | reply (contentType : QByteArray) (device : QIODevice)
  | fail (r : QWebEngineUrlRequestJob.Error)
  | redirect (url : QUrl)
deriving DecidableEq, Repr

/-- Executes one resolving call on the job. -/
def QWebEngineUrlRequestJob.call {δ : Type} (self : QWebEngineUrlRequestJob δ)
    (underlying : QWebEngineUrlRequestJob.Error → Int) (c : JobCall) (s : δ) : δ :=
  match c with
  | JobCall.reply contentType device => self.reply contentType device s
  | JobCall.fail r => self.fail underlying r s
  | JobCall.redirect url => self.redirect url s

/-- A sequence of resolving calls on one job, in order. -/
def QWebEngineUrlRequestJob.callAll {δ : Type} (self : QWebEngineUrlRequestJob δ)
    (underlying : QWebEngineUrlRequestJob.Error → Int) (cs : List JobCall) (s : δ) : δ :=
  cs.foldl (fun acc c => self.call underlying c acc) s

/-- A call received by the delegate, with its arguments. -/
inductive DelegateCall where
  | reply (contentType : QByteArray) (device : QIODevice)
  | fail (error : Int)
  | redirect (url : QUrl)
deriving DecidableEq, Repr

/-- A delegate that only records the calls it receives, oldest first, and
answers the accessors with fixed values. -/
def recordingDelegate (url : QUrl) (method : QByteArray) (initiator : QUrl)
    (headers : QMap QByteArray QByteArray) : URLRequestCustomJobDelegate (List DelegateCall) where
  url := fun _ => url
  method := fun _ => method
  initiator := fun _ => initiator
  requestHeaders := fun _ => headers
  reply := fun contentType device log => log ++ [DelegateCall.reply contentType device]
  fail := fun error log => log ++ [DelegateCall.fail error]
  redirect := fun u log => log ++ [DelegateCall.redirect u]

/-- Modelled from the spec: the `state` of a RequestDescriptor, "one of
{Pending, Replied, Redirected, Failed} — terminal once set". The terminal
states keep what the resolving call supplied. -/
inductive DescriptorState where
  | Pending
  | Replied (contentType : QByteArray) (dataSource : QIODevice)
  | Redirected (url : QUrl)
  | Failed (errorKind : Int)
deriving DecidableEq, Repr

/-- Modelled from the spec: the RequestDescriptor of a custom URL scheme job
(section 3): immutable `url`, `method`, `initiator`, the `headers`, and the
`state`. It stands for the state behind `URLRequestCustomJobDelegate`, whose
implementation is not among the sources. -/
structure RequestDescriptor where
  url : QUrl
  method : QByteArray
  initiator : QUrl
  headers : QMap QByteArray QByteArray
  state : DescriptorState
deriving DecidableEq, Repr

/-- Modelled from the spec: a resolving operation applies its disposition only
to a Pending descriptor ("Fails (logs/ignored by caller) if state is not
Pending"); on any other state it is silently ignored (section 4.3). -/
def RequestDescriptor.resolve (d : RequestDescriptor) (target : DescriptorState) :
    RequestDescriptor :=
  match d.state with
  | DescriptorState.Pending => { d with state := target }
  | _ => d

/-- Modelled from the spec: the Custom Scheme Job Responder of section 4.3, the
delegate behind a job. `reply` takes Pending to Replied, `redirect` takes
Pending to Redirected, `fail` takes Pending to Failed with the error kind it is
given. -/
def specDelegate : URLRequestCustomJobDelegate RequestDescriptor where
  url := fun d => d.url
  method := fun d => d.method
  initiator := fun d => d.initiator
  requestHeaders := fun d => d.headers
  reply := fun contentType device d => d.resolve (DescriptorState.Replied contentType device)
  fail := fun error d => d.resolve (DescriptorState.Failed error)
  redirect := fun url d => d.resolve (DescriptorState.Redirected url)

/-! ## tst_qwebengineurlrequestinterceptor.cpp -/

/-- The enum `QWebEngineUrlRequestInfo::ResourceType`: the enumerators the test
and the resource-type taxonomy name, and `ResourceTypeOther` for any further
enumerator, by its value. An `int` converted from the enum is identified with
the enumerator. -/
inductive ResourceType where
  | ResourceTypeMainFrame
  | ResourceTypeSubFrame
  | ResourceTypeStylesheet
  | ResourceTypeScript
  | ResourceTypeImage
  | ResourceTypeFontResource
  | ResourceTypeMedia
  | ResourceTypeFavicon
  | ResourceTypeXhr
  | ResourceTypeServiceWorker
  | ResourceTypeOther (value : Nat)
deriving DecidableEq, Repr

/-- A mutating member function of `QWebEngineUrlRequestInfo` called by an
interceptor, with its arguments. -/
inductive InfoCall where
  | block (shouldBlock : Bool)
  | redirect (url : QUrl)
  | setHttpHeader (name : QByteArray) (value : QByteArray)
deriving DecidableEq, Repr

/-- Modelled from the spec: the request descriptor offered to an interceptor
(class `QWebEngineUrlRequestInfo`, declared in `qwebengineurlrequestinfo.h`,
which is not among the sources). It carries the identity of the request, the
per-request mutation interface "header set, block, redirect" of section 6, and
the `changed` state the test reads. `calls` is a ghost trace of the mutating
member functions called on the object, oldest first. -/
structure QWebEngineUrlRequestInfo where
  d_url : QUrl
  d_firstPartyUrl : QUrl
  d_initiator : QUrl
  d_method : QByteArray
  d_resourceType : ResourceType
  d_changed : Bool
  d_shouldBlockRequest : Bool
  d_shouldRedirectRequest : Bool
  d_extraHeaders : QMap QByteArray QByteArray
  calls : List InfoCall
deriving DecidableEq, Repr

/-- Modelled from the spec: accessor `requestUrl()`, the current URL of the request. -/
def QWebEngineUrlRequestInfo.requestUrl (self : QWebEngineUrlRequestInfo) : QUrl :=
  self.d_url

/-- Modelled from the spec: accessor `firstPartyUrl()`. -/
def QWebEngineUrlRequestInfo.firstPartyUrl (self : QWebEngineUrlRequestInfo) : QUrl :=
  self.d_firstPartyUrl

/-- Modelled from the spec: accessor `initiator()`. -/
def QWebEngineUrlRequestInfo.initiator (self : QWebEngineUrlRequestInfo) : QUrl :=
  self.d_initiator

/-- Modelled from the spec: accessor `requestMethod()`. -/
def QWebEngineUrlRequestInfo.requestMethod (self : QWebEngineUrlRequestInfo) : QByteArray :=
  self.d_method

/-- Modelled from the spec: accessor `resourceType()`. -/
def QWebEngineUrlRequestInfo.resourceType (self : QWebEngineUrlRequestInfo) : ResourceType :=
  self.d_resourceType

/-- Modelled from the spec: accessor `changed()`, whether a mutating member
function has been called on the request. -/
def QWebEngineUrlRequestInfo.changed (self : QWebEngineUrlRequestInfo) : Bool :=
  self.d_changed

/-- Modelled from the spec: mutator `block(shouldBlock)`; marks the request
changed and records whether it is to be blocked. -/
def QWebEngineUrlRequestInfo.block (self : QWebEngineUrlRequestInfo) (shouldBlock : Bool) :
    QWebEngineUrlRequestInfo :=
  { self with
    d_changed := true
    d_shouldBlockRequest := shouldBlock
    calls := self.calls ++ [InfoCall.block shouldBlock] }

/-- Modelled from the spec: mutator `redirect(url)`; marks the request changed
and replaces its URL by the redirect target (the test `requestedUrl` reads the
target back through `requestUrl()`). -/
def QWebEngineUrlRequestInfo.redirect (self : QWebEngineUrlRequestInfo) (url : QUrl) :
    QWebEngineUrlRequestInfo :=
  { self with
    d_changed := true
    d_url := url
    d_shouldRedirectRequest := true
    calls := self.calls ++ [InfoCall.redirect url] }

/-- Modelled from the spec: mutator `setHttpHeader(name, value)`; marks the
request changed and sets the header, the last write for a name winning. -/
def QWebEngineUrlRequestInfo.setHttpHeader (self : QWebEngineUrlRequestInfo)
    (name value : QByteArray) : QWebEngineUrlRequestInfo :=
  { self with
    d_changed := true
    d_extraHeaders := self.d_extraHeaders.insert name value
    calls := self.calls ++ [InfoCall.setHttpHeader name value] }

/-- The mutating calls made on a request between the states `before` and
`after`: the part of the trace added since `before`. -/
def callsSince (before after : QWebEngineUrlRequestInfo) : List InfoCall :=
  after.calls.drop before.calls.length

/-- The struct `RequestInfo` of the test. -/
structure RequestInfo where
  requestUrl : QUrl
  firstPartyUrl : QUrl
  initiator : QUrl
  resourceType : ResourceType
deriving DecidableEq, Repr

/-- Constructor `RequestInfo(QWebEngineUrlRequestInfo &info)`. -/
def RequestInfo.new (info : QWebEngineUrlRequestInfo) : RequestInfo where
  requestUrl := info.requestUrl
  firstPartyUrl := info.firstPartyUrl
  initiator := info.initiator
  resourceType := info.resourceType

/-- The constant `kHttpHeaderReferrerValue`. -/
def kHttpHeaderReferrerValue : QByteArray := "http://somereferrer.com/"

/-- The constant `kHttpHeaderRefererName`. -/
def kHttpHeaderRefererName : QByteArray := "referer"

/-- The constant `kRedirectUrl`, `QUrl("qrc:///resources/content.html")`. -/
def kRedirectUrl : QUrl := ⟨"qrc", "///resources/content.html"⟩

/-- The data members of the class `TestRequestInterceptor`. -/
structure TestRequestInterceptor where
  requestInfos : List RequestInfo
  shouldRedirect : Bool
  requestInitiatorUrls : QMap QUrl (QSet QUrl)
  headers : QMap QByteArray QByteArray
deriving DecidableEq, Repr

/-- Constructor `TestRequestInterceptor(bool redirect)`: empty collections and
`shouldRedirect(redirect)`. -/
def TestRequestInterceptor.new (redirect : Bool) : TestRequestInterceptor where
  requestInfos := []
  shouldRedirect := redirect
  requestInitiatorUrls := QMap.nil
  headers := QMap.nil

/-- What one call of `interceptRequest` leaves behind: the interceptor, the
request object it was handed by reference, and the value of the condition of
the final `Q_ASSERT` (`none` when the function returns before reaching it). -/
structure InterceptOutcome where
  interceptor : TestRequestInterceptor
  info : QWebEngineUrlRequestInfo
  assertion : Option Bool
deriving DecidableEq, Repr

/-- Method `TestRequestInterceptor::interceptRequest(info)`. The opening
`QVERIFY` compares thread identities, which have no counterpart here: the
interceptor is run on the application thread. -/
def TestRequestInterceptor.interceptRequest (self : TestRequestInterceptor)
    (info : QWebEngineUrlRequestInfo) : InterceptOutcome :=
  if info.requestUrl.scheme = "blob" then
    { interceptor := self, info := info, assertion := none }
  else
    let block : Bool := info.requestMethod != "GET"
    let redirect : Bool := self.shouldRedirect && info.requestUrl != kRedirectUrl
    let info1 : QWebEngineUrlRequestInfo :=
      if block then info.block true
      else if redirect then info.redirect kRedirectUrl
      else self.headers.entries.foldl (fun acc it => acc.setHttpHeader it.1 it.2) info
    let initiators : QMap QUrl (QSet QUrl) :=
      self.requestInitiatorUrls.insert info1.requestUrl
        ((self.requestInitiatorUrls.at info1.requestUrl).insert info1.initiator)
    { interceptor :=
        { self with
          requestInitiatorUrls := initiators
          requestInfos := self.requestInfos ++ [RequestInfo.new info1] }
      info := info1
      assertion := some (info1.changed == (block || redirect || !self.headers.isEmpty)) }

/-- Method `TestRequestInterceptor::shouldSkipRequest(requestInfo)`. -/
def TestRequestInterceptor.shouldSkipRequest (_self : TestRequestInterceptor)
    (requestInfo : RequestInfo) : Bool :=
  if requestInfo.resourceType = ResourceType.ResourceTypeMainFrame ∨
      requestInfo.resourceType = ResourceType.ResourceTypeSubFrame then
    false
  else
    requestInfo.firstPartyUrl == QUrl.empty

/-- Method `TestRequestInterceptor::getUrlRequestForType(type)`: the loop over
`requestInfos`, accumulating into `infos`. -/
def TestRequestInterceptor.getUrlRequestForType (self : TestRequestInterceptor)
    (type : ResourceType) : List RequestInfo :=
  self.requestInfos.foldl
    (fun infos requestInfo =>
      if self.shouldSkipRequest requestInfo then infos
      else if type = requestInfo.resourceType then infos ++ [requestInfo]
      else infos)
    []

/-- The loop of `hasUrlRequestForType` over the remaining entries: it returns
`true` at the first entry that is not skipped and has the type. -/
def TestRequestInterceptor.hasUrlRequestForTypeFrom (self : TestRequestInterceptor)
    (type : ResourceType) : List RequestInfo → Bool
  | [] => false
  | requestInfo :: rest =>
    if self.shouldSkipRequest requestInfo then self.hasUrlRequestForTypeFrom type rest
    else if type = requestInfo.resourceType then true
    else self.hasUrlRequestForTypeFrom type rest

/-- Method `TestRequestInterceptor::hasUrlRequestForType(type)`. -/
def TestRequestInterceptor.hasUrlRequestForType (self : TestRequestInterceptor)
    (type : ResourceType) : Bool :=
  self.hasUrlRequestForTypeFrom type self.requestInfos

/-- Whether a mutating call is a call of `redirect`. -/
def InfoCall.isRedirect : InfoCall → Bool
  | InfoCall.redirect _ => true
  | _ => false

/-- Whether a mutating call is a call of `block`. -/
def InfoCall.isBlock : InfoCall → Bool
  | InfoCall.block _ => true
  | _ => false

/-- Modelled from the spec: the terminal state a resolving call asks for:
`reply` asks for Replied, `redirect` for Redirected, `fail` for Failed with the
error kind the delegate is handed. -/
def JobCall.disposition (underlying : QWebEngineUrlRequestJob.Error → Int) :
    JobCall → DescriptorState
  | JobCall.reply contentType device => DescriptorState.Replied contentType device
  | JobCall.fail r => DescriptorState.Failed (underlying r)
  | JobCall.redirect url => DescriptorState.Redirected url

/-- Whether a mutating call is a call of `setHttpHeader`. -/
def InfoCall.isSetHttpHeader : InfoCall → Bool
  | InfoCall.setHttpHeader _ _ => true
  | _ => false

/-- The call the delegate receives when a resolving call is forwarded with its
arguments as they are. -/
def JobCall.toDelegateCall (underlying : QWebEngineUrlRequestJob.Error → Int) :
    JobCall → DelegateCall
  | JobCall.reply contentType device => DelegateCall.reply contentType device
  | JobCall.fail r => DelegateCall.fail (underlying r)
  | JobCall.redirect url => DelegateCall.redirect url

/-- A sequence of `interceptRequest` calls on one interceptor, one per request
offered, in order; the interceptor left behind. -/
def TestRequestInterceptor.interceptAll (self : TestRequestInterceptor)
    (infos : List QWebEngineUrlRequestInfo) : TestRequestInterceptor :=
  infos.foldl (fun acc info => (acc.interceptRequest info).interceptor) self

/-- The check the test `initiator` makes on a recorded entry, for all entries:
`requestInitiatorUrls[info.requestUrl].contains(info.initiator)`. -/
def TestRequestInterceptor.initiatorsRecorded (self : TestRequestInterceptor) : Bool :=
  self.requestInfos.all
    (fun info => (self.requestInitiatorUrls.at info.requestUrl).contains info.initiator)

/-- Modelled from the spec: the target of the redirect an interceptor asked for
during one dispatch (section 4.2): the URL of its last `redirect` call, the last
write winning, and nothing when it made no such call. -/
def redirectTarget (before after : QWebEngineUrlRequestInfo) : Option QUrl :=
  (callsSince before after).foldl
    (fun acc c =>
      match c with
      | InfoCall.redirect url => some url
      | _ => acc)
    none

/-- Modelled from the spec: what following one navigation hop by hop ends in:
the interceptor left behind, the final URL, the number of times the interceptor
was called and the number of redirect hops. -/
structure Navigation where
  interceptor : TestRequestInterceptor
  finalUrl : QUrl
  dispatches : Nat
  hops : Nat
deriving DecidableEq, Repr

/-- Modelled from the spec: the dispatch of a request attempt by the
interception pipeline (section 4.2), which is not among the sources: the
interceptor is invoked exactly once per attempt, and "a redirect produces a new
request attempt (new descriptor, same or new interceptor scope) which is
independently dispatched". The new attempt is a GET request for the redirect
target. `fuel` bounds the number of attempts; the result is `none` when it runs
out. -/
def followRedirects (self : TestRequestInterceptor) (info : QWebEngineUrlRequestInfo) :
    Nat → Option Navigation
  | 0 => none
  | fuel + 1 =>
    match redirectTarget info (self.interceptRequest info).info with
    | none =>
      some
        { interceptor := (self.interceptRequest info).interceptor
          finalUrl := (self.interceptRequest info).info.requestUrl
          dispatches := 1
          hops := 0 }
    | some target =>
      match followRedirects (self.interceptRequest info).interceptor
          { d_url := target
            d_firstPartyUrl := info.firstPartyUrl
            d_initiator := info.initiator
            d_method := "GET"
            d_resourceType := info.resourceType
            d_changed := false
            d_shouldBlockRequest := false
            d_shouldRedirectRequest := false
            d_extraHeaders := QMap.nil
            calls := [] }
          fuel with
      | none => none
      | some nav => some { nav with dispatches := nav.dispatches + 1, hops := nav.hops + 1 }

/-! ## Sample values -/

/-- A request as the engine first hands it to an interceptor: nothing changed
yet, no extra header, empty trace. -/
def freshInfo (url firstPartyUrl initiator : QUrl) (method : QByteArray)
    (resourceType : ResourceType) : QWebEngineUrlRequestInfo where
  d_url := url
  d_firstPartyUrl := firstPartyUrl
  d_initiator := initiator
  d_method := method
  d_resourceType := resourceType
  d_changed := false
  d_shouldBlockRequest := false
  d_shouldRedirectRequest := false
  d_extraHeaders := QMap.nil
  calls := []

/-- The page `qrc:///resources/index.html` of the test `interceptRequest`. -/
def indexUrl : QUrl := ⟨"qrc", "///resources/index.html"⟩

/-- The URL `qrc:///resources/__placeholder__` loaded by the tests. -/
def placeholderUrl : QUrl := ⟨"qrc", "///resources/__placeholder__"⟩

/-- The form submission of `post()` in the test page: a POST main-frame request. -/
def postInfo : QWebEngineUrlRequestInfo :=
  freshInfo indexUrl indexUrl indexUrl "POST" ResourceType.ResourceTypeMainFrame

/-- The load of `qrc:///resources/__placeholder__`: a GET main-frame request. -/
def placeholderInfo : QWebEngineUrlRequestInfo :=
  freshInfo placeholderUrl placeholderUrl QUrl.empty "GET" ResourceType.ResourceTypeMainFrame

/-- The load of the redirect target itself: a GET main-frame request. -/
def contentInfo : QWebEngineUrlRequestInfo :=
  freshInfo kRedirectUrl kRedirectUrl QUrl.empty "GET" ResourceType.ResourceTypeMainFrame

/-- A GET request for a blob URL, as the engine issues since Chromium 63. -/
def blobInfo : QWebEngineUrlRequestInfo :=
  freshInfo ⟨"blob", "qrc:///0b5e4fd4-8a5e-4c67-9d0f-1f2a3b4c5d6e"⟩ indexUrl indexUrl "GET"
    (ResourceType.ResourceTypeOther 6)

/-- A pending descriptor for a GET request of a custom scheme. -/
def pendingDescriptor : RequestDescriptor where
  url := ⟨"myscheme", "//host/page"⟩
  method := "GET"
  initiator := QUrl.empty
  headers := QMap.nil
  state := DescriptorState.Pending

/-- The interceptor of the test `passRefererHeader`: no redirecting, and the
referer header inserted into `headers`. -/
def refererInterceptor : TestRequestInterceptor :=
  { TestRequestInterceptor.new false with
    headers := (QMap.nil : QMap QByteArray QByteArray).insert kHttpHeaderRefererName
      kHttpHeaderReferrerValue }

/-- The load of the local HTTP server page in `passRefererHeader`: a GET
main-frame request. -/
def httpInfo : QWebEngineUrlRequestInfo :=
  freshInfo ⟨"http", "//127.0.0.1:8080/"⟩ ⟨"http", "//127.0.0.1:8080/"⟩ QUrl.empty "GET"
    ResourceType.ResourceTypeMainFrame

/-! ### Fullscreen request: theorems -/

/-- C1: for a request constructed with origin `o`, flag `t` and callback `f`,
`accept()` is one invocation of `f` with exactly `t`; with the recording
callback the log grows by the single entry `t`. -/
theorem accept_invokes_callback_with_toggleOn {σ : Type} (o : QUrl) (t : Bool)
    (f : Bool → σ → σ) (w : σ) (log : List Bool) :
    (QWebEngineFullScreenRequest.new o t f).accept w = f t w ∧
    (QWebEngineFullScreenRequest.new o t recordCall).accept log = log ++ [t] :=
  ⟨rfl, rfl⟩

/-- C2: for a request constructed with flag `t` and callback `f`, `reject()` is
one invocation of `f` with exactly the negation of `t`; with the recording
callback the log grows by the single entry `!t`. -/
theorem reject_invokes_callback_with_negation {σ : Type} (o : QUrl) (t : Bool)
    (f : Bool → σ → σ) (w : σ) (log : List Bool) :
    (QWebEngineFullScreenRequest.new o t f).reject w = f (!t) w ∧
    (QWebEngineFullScreenRequest.new o t recordCall).reject log = log ++ [!t] :=
  ⟨rfl, rfl⟩

/-- C3: the value `a` delivered by `accept()` and the value `r` delivered by
`reject()` always differ: they are `(true, false)` when `toggleOn` is true and
`(false, true)` when it is false, whatever the callback and host state. -/
theorem accept_reject_complementary (o : QUrl) (t : Bool) :
    ∃ a r : Bool, a ≠ r ∧
      (a, r) = (if t = true then (true, false) else (false, true)) ∧
      ∀ (σ : Type) (f : Bool → σ → σ) (w : σ),
        (QWebEngineFullScreenRequest.new o t f).accept w = f a w ∧
        (QWebEngineFullScreenRequest.new o t f).reject w = f r w := by
  refine ⟨t, !t, ?_, ?_, fun σ f w => ⟨rfl, rfl⟩⟩
  · cases t <;> decide
  · cases t <;> rfl

/-- C4: `toggleOn()` returns `t` and `origin()` returns `o`, before and after
any sequence of `accept()`/`reject()` calls, and each accessor leaves the host
state as it found it (the callback is not invoked). -/
theorem accessors_constant_and_pure {σ : Type} (o : QUrl) (t : Bool)
    (f : Bool → σ → σ) (cs : List Resolution) (w : σ) :
    (QWebEngineFullScreenRequest.new o t f).toggleOn w = (t, w) ∧
    (QWebEngineFullScreenRequest.new o t f).origin w = (o, w) ∧
    (QWebEngineFullScreenRequest.new o t f).toggleOn
        ((QWebEngineFullScreenRequest.new o t f).resolveAll cs w)
      = (t, (QWebEngineFullScreenRequest.new o t f).resolveAll cs w) ∧
    (QWebEngineFullScreenRequest.new o t f).origin
        ((QWebEngineFullScreenRequest.new o t f).resolveAll cs w)
      = (o, (QWebEngineFullScreenRequest.new o t f).resolveAll cs w) :=
  ⟨rfl, rfl, rfl, rfl⟩

/-- Each resolving call appends exactly one entry to the log of the recording
callback. -/
theorem resolveAll_recordCall_length (o : QUrl) (t : Bool) (cs : List Resolution) :
    ∀ log : List Bool,
      ((QWebEngineFullScreenRequest.new o t recordCall).resolveAll cs log).length
        = log.length + cs.length := by
  induction cs with
  | nil => intro log; simp [QWebEngineFullScreenRequest.resolveAll]
  | cons c cs ih =>
    intro log
    have h := ih ((QWebEngineFullScreenRequest.new o t recordCall).resolve c log)
    simp only [QWebEngineFullScreenRequest.resolveAll, List.foldl_cons] at h ⊢
    rw [h]
    cases c <;>
      simp [QWebEngineFullScreenRequest.resolve, QWebEngineFullScreenRequest.accept,
        QWebEngineFullScreenRequest.reject, QWebEngineFullScreenRequest.new, recordCall] <;>
      omega

/-- C5 (as stated, refuted): two `accept()` calls on one request invoke the
callback twice. -/
theorem callback_invoked_twice_by_two_accepts :
    ¬ (((QWebEngineFullScreenRequest.new ⟨"https", "//example.org/video"⟩ true recordCall).resolveAll
        [Resolution.accept, Resolution.accept] []).length ≤ 1) := by
  decide

/-- C5 (amended): the callback is invoked once per `accept()`/`reject()` call,
so the number of invocations equals the number of calls, and it is at most one
exactly when at most one call is made. -/
theorem callback_invoked_once_per_call (o : QUrl) (t : Bool) (cs : List Resolution) :
    ((QWebEngineFullScreenRequest.new o t recordCall).resolveAll cs []).length = cs.length ∧
    (((QWebEngineFullScreenRequest.new o t recordCall).resolveAll cs []).length ≤ 1
      ↔ cs.length ≤ 1) := by
  have h := resolveAll_recordCall_length o t cs []
  simp only [List.length_nil, Nat.zero_add] at h
  exact ⟨h, by rw [h]⟩

/-! ### URL request job: theorems -/

/-- A descriptor that is no longer Pending ignores every resolving operation. -/
theorem RequestDescriptor.resolve_of_not_pending (d : RequestDescriptor)
    (target : DescriptorState) (h : d.state ≠ DescriptorState.Pending) :
    d.resolve target = d := by
  unfold RequestDescriptor.resolve
  split
  · next hp => exact absurd hp h
  · rfl

/-- On a Pending descriptor a resolving operation sets the requested state. -/
theorem RequestDescriptor.resolve_of_pending (d : RequestDescriptor)
    (target : DescriptorState) (h : d.state = DescriptorState.Pending) :
    d.resolve target = { d with state := target } := by
  unfold RequestDescriptor.resolve
  rw [h]

/-- Every resolving call on a job over the responder is one resolving
operation of the descriptor, with the disposition of the call. -/
theorem call_specDelegate (underlying : QWebEngineUrlRequestJob.Error → Int) (c : JobCall)
    (d : RequestDescriptor) :
    (QWebEngineUrlRequestJob.mk specDelegate).call underlying c d
      = d.resolve (c.disposition underlying) := by
  cases c <;> rfl

/-- No disposition is the Pending state. -/
theorem JobCall.disposition_ne_pending (underlying : QWebEngineUrlRequestJob.Error → Int)
    (c : JobCall) : c.disposition underlying ≠ DescriptorState.Pending := by
  cases c <;> simp [JobCall.disposition]

/-- Resolving calls leave a descriptor that is not Pending as it is. -/
theorem callAll_specDelegate_of_not_pending (underlying : QWebEngineUrlRequestJob.Error → Int)
    (cs : List JobCall) (d : RequestDescriptor) (h : d.state ≠ DescriptorState.Pending) :
    (QWebEngineUrlRequestJob.mk specDelegate).callAll underlying cs d = d := by
  induction cs with
  | nil => rfl
  | cons c cs ih =>
    simp only [QWebEngineUrlRequestJob.callAll, List.foldl_cons] at ih ⊢
    rw [call_specDelegate, RequestDescriptor.resolve_of_not_pending d _ h]
    exact ih

/-- C6: on a job whose descriptor is Pending, the first call of `reply()`,
`redirect()` or `fail()` applies its disposition, and whatever resolving calls
follow, the descriptor stays exactly as the first call left it. -/
theorem job_single_terminal_disposition (underlying : QWebEngineUrlRequestJob.Error → Int)
    (d : RequestDescriptor) (hd : d.state = DescriptorState.Pending)
    (c : JobCall) (cs : List JobCall) :
    (QWebEngineUrlRequestJob.mk specDelegate).call underlying c d
      = { d with state := c.disposition underlying } ∧
    ((QWebEngineUrlRequestJob.mk specDelegate).call underlying c d).state
      ≠ DescriptorState.Pending ∧
    (QWebEngineUrlRequestJob.mk specDelegate).callAll underlying cs
        ((QWebEngineUrlRequestJob.mk specDelegate).call underlying c d)
      = (QWebEngineUrlRequestJob.mk specDelegate).call underlying c d := by
  have h1 : (QWebEngineUrlRequestJob.mk specDelegate).call underlying c d
      = { d with state := c.disposition underlying } := by
    rw [call_specDelegate, RequestDescriptor.resolve_of_pending d _ hd]
  have h2 : ((QWebEngineUrlRequestJob.mk specDelegate).call underlying c d).state
      ≠ DescriptorState.Pending := by
    rw [h1]
    exact JobCall.disposition_ne_pending underlying c
  exact ⟨h1, h2, callAll_specDelegate_of_not_pending underlying cs _ h2⟩

/-- C6, at a sample job: `reply()` followed by `fail()` and `redirect()` leaves
the job Replied. -/
theorem job_single_terminal_disposition_witness :
    pendingDescriptor.state = DescriptorState.Pending ∧
    (QWebEngineUrlRequestJob.mk specDelegate).callAll QWebEngineUrlRequestJob.Error.ordinal
        [JobCall.fail QWebEngineUrlRequestJob.Error.RequestFailed, JobCall.redirect kRedirectUrl]
        ((QWebEngineUrlRequestJob.mk specDelegate).call QWebEngineUrlRequestJob.Error.ordinal
          (JobCall.reply "text/html" 1) pendingDescriptor)
      = (QWebEngineUrlRequestJob.mk specDelegate).call QWebEngineUrlRequestJob.Error.ordinal
          (JobCall.reply "text/html" 1) pendingDescriptor :=
  ⟨rfl, (job_single_terminal_disposition QWebEngineUrlRequestJob.Error.ordinal pendingDescriptor
    rfl (JobCall.reply "text/html" 1)
    [JobCall.fail QWebEngineUrlRequestJob.Error.RequestFailed, JobCall.redirect kRedirectUrl]).2.2⟩

/-- The numbering of the enumerators by documented order gives distinct
enumerators distinct values. -/
theorem QWebEngineUrlRequestJob.Error.ordinal_injective :
    Function.Injective QWebEngineUrlRequestJob.Error.ordinal := by
  intro a b h
  cases a <;> cases b <;> first | rfl | (exact absurd h (by decide))

/-- C7: `fail(r)` hands the delegate the error whose underlying value is that
of `r`, for every enumerator `r`, `NoError` included; when the enumerators have
distinct values, the delegate receives different calls for different `r`. -/
theorem fail_passes_same_numeric_value {δ : Type} (job : QWebEngineUrlRequestJob δ)
    (underlying : QWebEngineUrlRequestJob.Error → Int)
    (hdistinct : Function.Injective underlying)
    (r r2 : QWebEngineUrlRequestJob.Error) (s : δ)
    (url initiator : QUrl) (method : QByteArray) (headers : QMap QByteArray QByteArray)
    (log : List DelegateCall) :
    job.fail underlying r s = job.d_ptr.fail (underlying r) s ∧
    job.fail underlying QWebEngineUrlRequestJob.Error.NoError s
      = job.d_ptr.fail (underlying QWebEngineUrlRequestJob.Error.NoError) s ∧
    (QWebEngineUrlRequestJob.mk (recordingDelegate url method initiator headers)).fail
        underlying r log = log ++ [DelegateCall.fail (underlying r)] ∧
    (r ≠ r2 →
      (QWebEngineUrlRequestJob.mk (recordingDelegate url method initiator headers)).fail
          underlying r log
        ≠ (QWebEngineUrlRequestJob.mk (recordingDelegate url method initiator headers)).fail
          underlying r2 log) := by
  refine ⟨rfl, rfl, rfl, ?_⟩
  intro hne heq
  simp only [QWebEngineUrlRequestJob.fail, recordingDelegate, List.append_cancel_left_eq,
    List.cons.injEq, DelegateCall.fail.injEq, and_true] at heq
  exact hne (hdistinct heq)

/-- C7, at the numbering by documented order: `fail(NoError)` reaches the
delegate as error 0 and differs from what `fail(RequestFailed)` passes. -/
theorem fail_passes_same_numeric_value_witness :
    Function.Injective QWebEngineUrlRequestJob.Error.ordinal ∧
    (QWebEngineUrlRequestJob.mk (recordingDelegate indexUrl "GET" QUrl.empty QMap.nil)).fail
        QWebEngineUrlRequestJob.Error.ordinal QWebEngineUrlRequestJob.Error.NoError []
      = [] ++ [DelegateCall.fail (QWebEngineUrlRequestJob.Error.ordinal
          QWebEngineUrlRequestJob.Error.NoError)] ∧
    (QWebEngineUrlRequestJob.mk (recordingDelegate indexUrl "GET" QUrl.empty QMap.nil)).fail
        QWebEngineUrlRequestJob.Error.ordinal QWebEngineUrlRequestJob.Error.NoError []
      ≠ (QWebEngineUrlRequestJob.mk (recordingDelegate indexUrl "GET" QUrl.empty QMap.nil)).fail
        QWebEngineUrlRequestJob.Error.ordinal QWebEngineUrlRequestJob.Error.RequestFailed [] :=
  have h := fail_passes_same_numeric_value
    (QWebEngineUrlRequestJob.mk (recordingDelegate indexUrl "GET" QUrl.empty QMap.nil))
    QWebEngineUrlRequestJob.Error.ordinal
    (by intro a b hab; cases a <;> cases b <;> first | rfl | (exact absurd hab (by decide)))
    QWebEngineUrlRequestJob.Error.NoError QWebEngineUrlRequestJob.Error.RequestFailed
    [] indexUrl QUrl.empty "GET" QMap.nil []
  ⟨QWebEngineUrlRequestJob.Error.ordinal_injective, h.2.2.1, h.2.2.2 (by decide)⟩

/-- Accessor calls leave the state behind the delegate as it is. -/
theorem queryAll_eq {δ : Type} (job : QWebEngineUrlRequestJob δ) (qs : List JobQuery) (s : δ) :
    job.queryAll qs s = s := by
  induction qs with
  | nil => rfl
  | cons q qs ih =>
    simp only [QWebEngineUrlRequestJob.queryAll, List.foldl_cons] at ih ⊢
    have hq : job.query q s = s := by cases q <;> rfl
    rw [hq]
    exact ih

/-- C8: the four accessors return exactly what the delegate answers and leave
the state behind the delegate unchanged, so after any sequence of accessor
calls each of them returns what it returned before. -/
theorem job_accessors_forward_and_preserve {δ : Type} (job : QWebEngineUrlRequestJob δ)
    (qs : List JobQuery) (s : δ) :
    job.requestUrl s = (job.d_ptr.url s, s) ∧
    job.requestMethod s = (job.d_ptr.method s, s) ∧
    job.initiator s = (job.d_ptr.initiator s, s) ∧
    job.requestHeaders s = (job.d_ptr.requestHeaders s, s) ∧
    job.queryAll qs s = s ∧
    job.requestUrl (job.queryAll qs s) = job.requestUrl s ∧
    job.requestMethod (job.queryAll qs s) = job.requestMethod s ∧
    job.initiator (job.queryAll qs s) = job.initiator s ∧
    job.requestHeaders (job.queryAll qs s) = job.requestHeaders s := by
  rw [queryAll_eq]
  exact ⟨rfl, rfl, rfl, rfl, rfl, rfl, rfl, rfl, rfl⟩

/-! ### Test interceptor: theorems -/

/-- The header loop calls `setHttpHeader` once per entry of the map, in
iteration order, and makes no other mutating call. -/
theorem foldl_setHttpHeader_calls (l : List (QByteArray × QByteArray)) :
    ∀ info : QWebEngineUrlRequestInfo,
      (l.foldl (fun acc it => acc.setHttpHeader it.1 it.2) info).calls
        = info.calls ++ l.map (fun it => InfoCall.setHttpHeader it.1 it.2) := by
  induction l with
  | nil => intro info; simp
  | cons e l ih =>
    intro info
    simp only [List.foldl_cons, List.map_cons]
    rw [ih]
    simp [QWebEngineUrlRequestInfo.setHttpHeader]

/-- The calls added to a trace are what `callsSince` reports. -/
theorem callsSince_append (before after : QWebEngineUrlRequestInfo) (added : List InfoCall)
    (h : after.calls = before.calls ++ added) : callsSince before after = added := by
  unfold callsSince
  rw [h]
  simp

/-- The mutating calls one run of `interceptRequest` makes on the request:
none for a blob URL, otherwise `block(true)` for a method other than GET,
otherwise `redirect(kRedirectUrl)` when redirecting is on and the URL is not
the target, otherwise one `setHttpHeader` per entry of `headers`. -/
theorem callsSince_interceptRequest (self : TestRequestInterceptor)
    (info : QWebEngineUrlRequestInfo) :
    callsSince info (self.interceptRequest info).info =
      if info.requestUrl.scheme = "blob" then []
      else if info.requestMethod ≠ "GET" then [InfoCall.block true]
      else if self.shouldRedirect = true ∧ info.requestUrl ≠ kRedirectUrl then
        [InfoCall.redirect kRedirectUrl]
      else self.headers.entries.map (fun it => InfoCall.setHttpHeader it.1 it.2) := by
  apply callsSince_append
  unfold TestRequestInterceptor.interceptRequest
  by_cases hb : info.requestUrl.scheme = "blob"
  · simp [hb]
  · by_cases hm : info.requestMethod = "GET"
    · by_cases hr : self.shouldRedirect = true ∧ info.requestUrl ≠ kRedirectUrl
      · simp [hb, hm, hr, QWebEngineUrlRequestInfo.redirect]
      · have hr2 : (self.shouldRedirect && info.requestUrl != kRedirectUrl) = false := by
          simpa using hr
        simp only [hb, hm, hr, hr2, if_false, if_true, bne_self_eq_false, ne_eq,
          not_true_eq_false, Bool.false_eq_true, not_false_eq_true]
        exact foldl_setHttpHeader_calls _ _
    · simp [hb, hm, QWebEngineUrlRequestInfo.block]

/-- C9: on a request whose scheme is not blob, `interceptRequest` calls
`block(true)`, and nothing else, when the method is not GET, whatever
`shouldRedirect` and `headers` are; when the method is GET it makes no call of
`block`. -/
theorem interceptRequest_blocks_exactly_non_get (self : TestRequestInterceptor)
    (info : QWebEngineUrlRequestInfo) (hblob : info.requestUrl.scheme ≠ "blob") :
    (info.requestMethod ≠ "GET" →
      callsSince info (self.interceptRequest info).info = [InfoCall.block true] ∧
      (self.interceptRequest info).info = info.block true) ∧
    (info.requestMethod = "GET" →
      ∀ b : Bool, InfoCall.block b ∉ callsSince info (self.interceptRequest info).info) := by
  refine ⟨fun hm => ⟨?_, ?_⟩, fun hm b => ?_⟩
  · rw [callsSince_interceptRequest]
    simp [hblob, hm]
  · unfold TestRequestInterceptor.interceptRequest
    simp [hblob, hm]
  · rw [callsSince_interceptRequest]
    by_cases hr : self.shouldRedirect = true ∧ info.requestUrl ≠ kRedirectUrl
    · simp [hblob, hm, hr]
    · simp [hblob, hm, hr]

/-- C9, at the requests of the test: the POST of `post()` is blocked, the GET
of the placeholder is not, with redirecting off as well as on. -/
theorem interceptRequest_blocks_exactly_non_get_witness :
    postInfo.requestUrl.scheme ≠ "blob" ∧ postInfo.requestMethod ≠ "GET" ∧
    callsSince postInfo ((TestRequestInterceptor.new false).interceptRequest postInfo).info
      = [InfoCall.block true] ∧
    placeholderInfo.requestUrl.scheme ≠ "blob" ∧ placeholderInfo.requestMethod = "GET" ∧
    InfoCall.block true ∉
      callsSince placeholderInfo
        ((TestRequestInterceptor.new true).interceptRequest placeholderInfo).info :=
  ⟨by decide, by decide,
    ((interceptRequest_blocks_exactly_non_get (TestRequestInterceptor.new false) postInfo
      (by decide)).1 (by decide)).1,
    by decide, by decide,
    (interceptRequest_blocks_exactly_non_get (TestRequestInterceptor.new true) placeholderInfo
      (by decide)).2 (by decide) true⟩

/-- C10 (as stated, refuted): a GET request for a blob URL that differs from
`kRedirectUrl` is not redirected although `shouldRedirect` is true. -/
theorem blob_get_request_not_redirected :
    blobInfo.requestMethod = "GET" ∧
    (TestRequestInterceptor.new true).shouldRedirect = true ∧
    blobInfo.requestUrl ≠ kRedirectUrl ∧
    (callsSince blobInfo
      ((TestRequestInterceptor.new true).interceptRequest blobInfo).info).any InfoCall.isRedirect
      = false := by
  decide

/-- C10 (amended): a request whose URL is `kRedirectUrl` is never redirected,
even with `shouldRedirect` true; a GET request whose scheme is not blob is
redirected, to `kRedirectUrl` and by a single call, exactly when
`shouldRedirect` is true and its URL differs from `kRedirectUrl`; a blob
request is never redirected. -/
theorem interceptRequest_redirects_iff (self : TestRequestInterceptor)
    (info : QWebEngineUrlRequestInfo) :
    (info.requestUrl = kRedirectUrl →
      ∀ u : QUrl, InfoCall.redirect u ∉ callsSince info (self.interceptRequest info).info) ∧
    (info.requestUrl.scheme ≠ "blob" → info.requestMethod = "GET" →
      (((callsSince info (self.interceptRequest info).info).any InfoCall.isRedirect = true
          ↔ (self.shouldRedirect = true ∧ info.requestUrl ≠ kRedirectUrl)) ∧
        ((callsSince info (self.interceptRequest info).info).any InfoCall.isRedirect = true →
          callsSince info (self.interceptRequest info).info
            = [InfoCall.redirect kRedirectUrl]))) ∧
    (info.requestUrl.scheme = "blob" →
      ∀ u : QUrl, InfoCall.redirect u ∉ callsSince info (self.interceptRequest info).info) := by
  have hhdr : ∀ l : List (QByteArray × QByteArray),
      (l.map (fun it => InfoCall.setHttpHeader it.1 it.2)).any InfoCall.isRedirect = false := by
    intro l
    induction l with
    | nil => rfl
    | cons e l ih => simp [InfoCall.isRedirect, ih]
  have hmem : ∀ (l : List (QByteArray × QByteArray)) (u : QUrl),
      InfoCall.redirect u ∉ l.map (fun it => InfoCall.setHttpHeader it.1 it.2) := by
    intro l u
    simp
  refine ⟨fun hu u => ?_, fun hb hm => ?_, fun hb u => ?_⟩
  · rw [callsSince_interceptRequest]
    by_cases hb : info.requestUrl.scheme = "blob"
    · simp [hb]
    · by_cases hm : info.requestMethod = "GET"
      · simp only [hb, hm, hu, if_false, ne_eq, not_true_eq_false, and_false]
        exact hmem _ u
      · simp [hb, hm]
  · rw [callsSince_interceptRequest]
    by_cases hr : self.shouldRedirect = true ∧ info.requestUrl ≠ kRedirectUrl
    · simp [hb, hm, hr, InfoCall.isRedirect]
    · simp only [hb, hm, hr, if_false, ne_eq, not_true_eq_false, hhdr, iff_false,
        Bool.false_eq_true, not_false_eq_true, false_implies, and_self]
  · rw [callsSince_interceptRequest]
    simp [hb]

/-- C10 (amended), at the requests of the test `setUrlSameUrl`: with
`shouldRedirect` true the load of the redirect target is not redirected and the
load of the placeholder is redirected once, to the target. -/
theorem interceptRequest_redirects_iff_witness :
    contentInfo.requestUrl = kRedirectUrl ∧
    InfoCall.redirect kRedirectUrl ∉
      callsSince contentInfo ((TestRequestInterceptor.new true).interceptRequest contentInfo).info ∧
    placeholderInfo.requestUrl.scheme ≠ "blob" ∧ placeholderInfo.requestMethod = "GET" ∧
    ((callsSince placeholderInfo
        ((TestRequestInterceptor.new true).interceptRequest placeholderInfo).info).any
          InfoCall.isRedirect = true
      ↔ ((TestRequestInterceptor.new true).shouldRedirect = true ∧
          placeholderInfo.requestUrl ≠ kRedirectUrl)) :=
  ⟨by decide,
    (interceptRequest_redirects_iff (TestRequestInterceptor.new true) contentInfo).1
      (by decide) kRedirectUrl,
    by decide, by decide,
    ((interceptRequest_redirects_iff (TestRequestInterceptor.new true) placeholderInfo).2.1
      (by decide) (by decide)).1⟩

/-! ### Containers: lemmas -/

/-- Looking up a key just inserted finds the inserted value. -/
theorem find?_insertEntry_self {κ ν : Type} [DecidableEq κ] (l : List (κ × ν)) (key : κ) (v : ν) :
    ((insertEntry l key v).find? (fun e => decide (e.1 = key))).map Prod.snd = some v := by
  induction l with
  | nil => simp [insertEntry]
  | cons e l ih =>
    obtain ⟨k1, v1⟩ := e
    by_cases h : k1 = key
    · simp [insertEntry, h]
    · simp [insertEntry, h, List.find?_cons]
      simpa using ih

/-- Inserting under one key does not change what is found under another. -/
theorem find?_insertEntry_of_ne {κ ν : Type} [DecidableEq κ] (l : List (κ × ν)) (key key2 : κ)
    (v : ν) (h : key ≠ key2) :
    ((insertEntry l key v).find? (fun e => decide (e.1 = key2))).map Prod.snd
      = (l.find? (fun e => decide (e.1 = key2))).map Prod.snd := by
  induction l with
  | nil => simp [insertEntry, h]
  | cons e l ih =>
    obtain ⟨k1, v1⟩ := e
    by_cases h1 : k1 = key
    · subst h1
      simp [insertEntry, List.find?_cons, h]
    · by_cases h2 : k1 = key2
      · subst h2
        simp [insertEntry, h1, List.find?_cons]
      · simp only [insertEntry, h1, if_false, List.find?_cons, h2, decide_False]
        exact ih

/-- Member `value` after `insert`, at the inserted key. -/
theorem QMap.value_insert_self {κ ν : Type} [DecidableEq κ] (m : QMap κ ν) (key : κ) (v : ν) :
    (m.insert key v).value key = some v :=
  find?_insertEntry_self m.entries key v

/-- Member `value` after `insert`, at another key. -/
theorem QMap.value_insert_of_ne {κ ν : Type} [DecidableEq κ] (m : QMap κ ν) (key key2 : κ)
    (v : ν) (h : key ≠ key2) : (m.insert key v).value key2 = m.value key2 :=
  find?_insertEntry_of_ne m.entries key key2 v h

/-- A set contains an element just inserted. -/
theorem QSet.contains_insert_self {α : Type} [DecidableEq α] (s : QSet α) (x : α) :
    (s.insert x).contains x = true := by
  unfold QSet.insert QSet.contains
  by_cases h : x ∈ s.elems
  · simp [h]
  · simp [h]

/-- Insertion into a set keeps the elements it had. -/
theorem QSet.contains_insert_of_contains {α : Type} [DecidableEq α] (s : QSet α) (x y : α)
    (h : s.contains y = true) : (s.insert x).contains y = true := by
  unfold QSet.insert
  unfold QSet.contains at h ⊢
  by_cases hx : x ∈ s.elems
  · simpa [hx] using h
  · have hy : y ∈ s.elems := by simpa using h
    simp [hx, hy]

/-! ### Test interceptor: the parts of one call -/

/-- A blob request is returned at once: interceptor and request untouched, the
assertion not reached. -/
theorem interceptRequest_of_blob (self : TestRequestInterceptor)
    (info : QWebEngineUrlRequestInfo) (hb : info.requestUrl.scheme = "blob") :
    self.interceptRequest info = { interceptor := self, info := info, assertion := none } := by
  unfold TestRequestInterceptor.interceptRequest
  simp [hb]

/-- The request left by a call that blocks. -/
theorem interceptRequest_info_of_not_get (self : TestRequestInterceptor)
    (info : QWebEngineUrlRequestInfo) (hb : info.requestUrl.scheme ≠ "blob")
    (hm : info.requestMethod ≠ "GET") :
    (self.interceptRequest info).info = info.block true := by
  unfold TestRequestInterceptor.interceptRequest
  simp [hb, hm]

/-- The request left by a call that redirects. -/
theorem interceptRequest_info_of_redirect (self : TestRequestInterceptor)
    (info : QWebEngineUrlRequestInfo) (hb : info.requestUrl.scheme ≠ "blob")
    (hm : info.requestMethod = "GET") (hs : self.shouldRedirect = true)
    (hu : info.requestUrl ≠ kRedirectUrl) :
    (self.interceptRequest info).info = info.redirect kRedirectUrl := by
  unfold TestRequestInterceptor.interceptRequest
  simp [hb, hm, hs, hu]

/-- The request left by a call that neither blocks nor redirects: the header
loop has run on it. -/
theorem interceptRequest_info_of_headers (self : TestRequestInterceptor)
    (info : QWebEngineUrlRequestInfo) (hb : info.requestUrl.scheme ≠ "blob")
    (hm : info.requestMethod = "GET")
    (hr : ¬ (self.shouldRedirect = true ∧ info.requestUrl ≠ kRedirectUrl)) :
    (self.interceptRequest info).info
      = self.headers.entries.foldl (fun acc it => acc.setHttpHeader it.1 it.2) info := by
  have hr2 : (self.shouldRedirect && info.requestUrl != kRedirectUrl) = false := by
    simpa using hr
  unfold TestRequestInterceptor.interceptRequest
  simp only [hb, hm, hr2, if_false, bne_self_eq_false, Bool.false_eq_true]

/-- The interceptor left by a call on a request that is not a blob request: the
initiator is inserted under the URL the request has after the call, and one
entry is appended for the request as it is after the call. -/
theorem interceptRequest_interceptor_of_not_blob (self : TestRequestInterceptor)
    (info : QWebEngineUrlRequestInfo) (hb : info.requestUrl.scheme ≠ "blob") :
    (self.interceptRequest info).interceptor =
      { self with
        requestInitiatorUrls :=
          self.requestInitiatorUrls.insert (self.interceptRequest info).info.requestUrl
            ((self.requestInitiatorUrls.at (self.interceptRequest info).info.requestUrl).insert
              (self.interceptRequest info).info.initiator)
        requestInfos := self.requestInfos ++ [RequestInfo.new (self.interceptRequest info).info] } := by
  unfold TestRequestInterceptor.interceptRequest
  simp [hb]

/-- A call changes neither `shouldRedirect` nor `headers`. -/
theorem interceptRequest_settings (self : TestRequestInterceptor)
    (info : QWebEngineUrlRequestInfo) :
    (self.interceptRequest info).interceptor.shouldRedirect = self.shouldRedirect ∧
    (self.interceptRequest info).interceptor.headers = self.headers := by
  by_cases hb : info.requestUrl.scheme = "blob"
  · rw [interceptRequest_of_blob self info hb]
    exact ⟨rfl, rfl⟩
  · rw [interceptRequest_interceptor_of_not_blob self info hb]
    exact ⟨rfl, rfl⟩

/-- The header loop changes only the extra headers, the changed flag and the
trace: URL, method, first-party URL, initiator, resource type and the block
and redirect flags stay. -/
theorem foldl_setHttpHeader_frame (l : List (QByteArray × QByteArray)) :
    ∀ info : QWebEngineUrlRequestInfo,
      (l.foldl (fun acc it => acc.setHttpHeader it.1 it.2) info).d_url = info.d_url ∧
      (l.foldl (fun acc it => acc.setHttpHeader it.1 it.2) info).d_method = info.d_method ∧
      (l.foldl (fun acc it => acc.setHttpHeader it.1 it.2) info).d_firstPartyUrl
        = info.d_firstPartyUrl ∧
      (l.foldl (fun acc it => acc.setHttpHeader it.1 it.2) info).d_initiator
        = info.d_initiator ∧
      (l.foldl (fun acc it => acc.setHttpHeader it.1 it.2) info).d_resourceType
        = info.d_resourceType ∧
      (l.foldl (fun acc it => acc.setHttpHeader it.1 it.2) info).d_shouldBlockRequest
        = info.d_shouldBlockRequest ∧
      (l.foldl (fun acc it => acc.setHttpHeader it.1 it.2) info).d_shouldRedirectRequest
        = info.d_shouldRedirectRequest := by
  induction l with
  | nil => intro info; simp
  | cons e l ih =>
    intro info
    simp only [List.foldl_cons]
    have h := ih (info.setHttpHeader e.1 e.2)
    simpa [QWebEngineUrlRequestInfo.setHttpHeader] using h

/-- The header loop sets the changed flag as soon as the map has an entry. -/
theorem foldl_setHttpHeader_changed (l : List (QByteArray × QByteArray)) :
    ∀ info : QWebEngineUrlRequestInfo,
      (l.foldl (fun acc it => acc.setHttpHeader it.1 it.2) info).d_changed
        = (info.d_changed || !l.isEmpty) := by
  induction l with
  | nil => intro info; simp
  | cons e l ih =>
    intro info
    simp only [List.foldl_cons]
    rw [ih]
    simp [QWebEngineUrlRequestInfo.setHttpHeader]

/-- A trace of `setHttpHeader` calls holds no redirect target. -/
theorem foldl_redirectTarget_setHttpHeader (l : List (QByteArray × QByteArray)) :
    ∀ acc : Option QUrl,
      (l.map (fun it => InfoCall.setHttpHeader it.1 it.2)).foldl
        (fun acc c =>
          match c with
          | InfoCall.redirect url => some url
          | _ => acc)
        acc = acc := by
  induction l with
  | nil => intro acc; rfl
  | cons e l ih =>
    intro acc
    simp only [List.map_cons, List.foldl_cons]
    exact ih acc

/-! ### Test interceptor: claims on redirects, headers and records -/

/-- A non-blob GET request that is already at the redirect target is dispatched
once and ends there, whatever `shouldRedirect` is. -/
theorem followRedirects_at_target (self : TestRequestInterceptor)
    (next : QWebEngineUrlRequestInfo) (fuel : Nat)
    (hnm : next.requestMethod = "GET") (hnu : next.requestUrl = kRedirectUrl) :
    followRedirects self next (fuel + 1) =
      some
        { interceptor := (self.interceptRequest next).interceptor
          finalUrl := kRedirectUrl
          dispatches := 1
          hops := 0 } := by
  have hnb : next.requestUrl.scheme ≠ "blob" := by
    rw [hnu]; decide
  have hnr : ¬ (self.shouldRedirect = true ∧ next.requestUrl ≠ kRedirectUrl) := by
    simp [hnu]
  have h2 : redirectTarget next (self.interceptRequest next).info = none := by
    unfold redirectTarget
    rw [callsSince_interceptRequest]
    simp only [hnb, hnm, hnu, if_false, ne_eq, not_true_eq_false, and_false]
    exact foldl_redirectTarget_setHttpHeader _ none
  have hurl : (self.interceptRequest next).info.requestUrl = kRedirectUrl := by
    rw [interceptRequest_info_of_headers self next hnb hnm hnr]
    unfold QWebEngineUrlRequestInfo.requestUrl
    rw [(foldl_setHttpHeader_frame _ next).1]
    exact hnu
  unfold followRedirects
  rw [h2, hurl]

/-- C11: a GET request with a non-blob URL other than `kRedirectUrl`, offered
to an interceptor with `shouldRedirect` true and followed hop by hop, ends
(with any fuel of at least two attempts) after exactly one redirect hop: the
interceptor is called exactly twice, two entries are recorded, and the final
URL is `qrc:///resources/content.html`. -/
theorem followRedirects_one_hop (self : TestRequestInterceptor)
    (info : QWebEngineUrlRequestInfo) (fuel : Nat)
    (hm : info.requestMethod = "GET") (hb : info.requestUrl.scheme ≠ "blob")
    (hu : info.requestUrl ≠ kRedirectUrl) (hs : self.shouldRedirect = true) :
    ∃ nav : Navigation,
      followRedirects self info (fuel + 2) = some nav ∧
      nav.finalUrl = ⟨"qrc", "///resources/content.html"⟩ ∧
      nav.dispatches = 2 ∧ nav.hops = 1 ∧
      nav.interceptor.requestInfos.length = self.requestInfos.length + 2 := by
  have h1 : redirectTarget info (self.interceptRequest info).info = some kRedirectUrl := by
    unfold redirectTarget
    rw [callsSince_interceptRequest]
    simp [hb, hm, hs, hu]
  have hlen1 : (self.interceptRequest info).interceptor.requestInfos.length
      = self.requestInfos.length + 1 := by
    rw [interceptRequest_interceptor_of_not_blob self info hb]
    simp
  have hstep : followRedirects self info (fuel + 2) =
      some
        { interceptor :=
            ((self.interceptRequest info).interceptor.interceptRequest
              { d_url := kRedirectUrl
                d_firstPartyUrl := info.firstPartyUrl
                d_initiator := info.initiator
                d_method := "GET"
                d_resourceType := info.resourceType
                d_changed := false
                d_shouldBlockRequest := false
                d_shouldRedirectRequest := false
                d_extraHeaders := QMap.nil
                calls := [] }).interceptor
          finalUrl := kRedirectUrl
          dispatches := 2
          hops := 1 } := by
    rw [followRedirects, h1]
    simp only []
    rw [followRedirects_at_target (self.interceptRequest info).interceptor
      ⟨kRedirectUrl, info.firstPartyUrl, info.initiator, "GET", info.resourceType, false, false,
        false, QMap.nil, []⟩ fuel rfl rfl]
  refine ⟨_, hstep, rfl, rfl, rfl, ?_⟩
  simp only []
  rw [interceptRequest_interceptor_of_not_blob _ _ (by
    simp [QWebEngineUrlRequestInfo.requestUrl, kRedirectUrl])]
  simp [hlen1]

/-- C11, at the load of `qrc:///resources/__placeholder__` in the test
`interceptRequest`: two interceptor calls, one hop, final URL the target. -/
theorem followRedirects_one_hop_witness :
    placeholderInfo.requestMethod = "GET" ∧ placeholderInfo.requestUrl.scheme ≠ "blob" ∧
    placeholderInfo.requestUrl ≠ kRedirectUrl ∧
    (TestRequestInterceptor.new true).shouldRedirect = true ∧
    ∃ nav : Navigation,
      followRedirects (TestRequestInterceptor.new true) placeholderInfo (0 + 2) = some nav ∧
      nav.finalUrl = ⟨"qrc", "///resources/content.html"⟩ ∧
      nav.dispatches = 2 ∧ nav.hops = 1 ∧
      nav.interceptor.requestInfos.length
        = (TestRequestInterceptor.new true).requestInfos.length + 2 :=
  ⟨by decide, by decide, by decide, rfl,
    followRedirects_one_hop (TestRequestInterceptor.new true) placeholderInfo 0
      (by decide) (by decide) (by decide) rfl⟩

/-- The extra headers after the header loop: every entry inserted in turn. -/
theorem foldl_setHttpHeader_extraHeaders (l : List (QByteArray × QByteArray)) :
    ∀ info : QWebEngineUrlRequestInfo,
      (l.foldl (fun acc it => acc.setHttpHeader it.1 it.2) info).d_extraHeaders
        = l.foldl (fun m it => m.insert it.1 it.2) info.d_extraHeaders := by
  induction l with
  | nil => intro info; rfl
  | cons e l ih =>
    intro info
    simp only [List.foldl_cons]
    rw [ih]
    rfl

/-- Inserting entries leaves the value under a key none of them has. -/
theorem foldl_insert_value_of_not_mem (l : List (QByteArray × QByteArray)) (name : QByteArray)
    (h : name ∉ l.map Prod.fst) :
    ∀ m : QMap QByteArray QByteArray,
      (l.foldl (fun m it => m.insert it.1 it.2) m).value name = m.value name := by
  induction l with
  | nil => intro m; rfl
  | cons e l ih =>
    intro m
    simp only [List.map_cons, List.mem_cons, not_or] at h
    simp only [List.foldl_cons]
    rw [ih h.2]
    exact QMap.value_insert_of_ne m e.1 name e.2 (fun heq => h.1 heq.symm)

/-- Inserting entries with distinct keys makes every entry retrievable. -/
theorem foldl_insert_value_of_mem (l : List (QByteArray × QByteArray))
    (hkeys : (l.map Prod.fst).Nodup) :
    ∀ (m : QMap QByteArray QByteArray) (name value : QByteArray), (name, value) ∈ l →
      (l.foldl (fun m it => m.insert it.1 it.2) m).value name = some value := by
  induction l with
  | nil => intro m name value h; simp at h
  | cons e l ih =>
    intro m name value h
    simp only [List.map_cons, List.nodup_cons] at hkeys
    simp only [List.foldl_cons]
    rcases List.mem_cons.mp h with heq | hmem
    · subst heq
      rw [foldl_insert_value_of_not_mem l _ hkeys.1]
      exact QMap.value_insert_self m _ _
    · exact ih hkeys.2 _ name value hmem

/-- C12: on a non-blob GET request that is not redirected, `interceptRequest`
calls `setHttpHeader` once per entry of `headers`, with the key and value of
the entry, and afterwards the request carries every entry: the header `name`
has exactly the value `value`. (The keys of a QMap are distinct.) -/
theorem headers_visible_as_set (self : TestRequestInterceptor)
    (info : QWebEngineUrlRequestInfo) (hb : info.requestUrl.scheme ≠ "blob")
    (hm : info.requestMethod = "GET")
    (hr : ¬ (self.shouldRedirect = true ∧ info.requestUrl ≠ kRedirectUrl))
    (hkeys : (self.headers.entries.map Prod.fst).Nodup) :
    callsSince info (self.interceptRequest info).info
      = self.headers.entries.map (fun it => InfoCall.setHttpHeader it.1 it.2) ∧
    ∀ name value : QByteArray, (name, value) ∈ self.headers.entries →
      (self.interceptRequest info).info.d_extraHeaders.value name = some value := by
  refine ⟨?_, fun name value hmem => ?_⟩
  · rw [callsSince_interceptRequest]
    simp [hb, hm, hr]
  · rw [interceptRequest_info_of_headers self info hb hm hr, foldl_setHttpHeader_extraHeaders]
    exact foldl_insert_value_of_mem _ hkeys _ name value hmem

/-- C12, at the test `passRefererHeader`: the request leaves the interceptor
with the header `referer` set to `http://somereferrer.com/`. -/
theorem headers_visible_as_set_witness :
    httpInfo.requestUrl.scheme ≠ "blob" ∧ httpInfo.requestMethod = "GET" ∧
    (refererInterceptor.headers.entries.map Prod.fst).Nodup ∧
    (refererInterceptor.interceptRequest httpInfo).info.d_extraHeaders.value
      kHttpHeaderRefererName = some kHttpHeaderReferrerValue :=
  ⟨by decide, by decide, by decide,
    (headers_visible_as_set refererInterceptor httpInfo (by decide) (by decide) (by decide)
      (by decide)).2 kHttpHeaderRefererName kHttpHeaderReferrerValue (by decide)⟩

/-- C13: an observer, with `shouldRedirect` false and no entry in `headers`,
calls none of `block`, `redirect` and `setHttpHeader` on a GET request, and
leaves the request object exactly as it was: URL, method and headers are
those it had before the call. -/
theorem observer_leaves_request_unmodified (self : TestRequestInterceptor)
    (info : QWebEngineUrlRequestInfo) (hs : self.shouldRedirect = false)
    (hh : self.headers.isEmpty = true) (hm : info.requestMethod = "GET") :
    callsSince info (self.interceptRequest info).info = [] ∧
    (self.interceptRequest info).info = info ∧
    (self.interceptRequest info).info.requestUrl = info.requestUrl ∧
    (self.interceptRequest info).info.requestMethod = info.requestMethod ∧
    (self.interceptRequest info).info.d_extraHeaders = info.d_extraHeaders := by
  have he : self.headers.entries = [] := by
    simpa [QMap.isEmpty] using hh
  have hinfo : (self.interceptRequest info).info = info := by
    by_cases hb : info.requestUrl.scheme = "blob"
    · rw [interceptRequest_of_blob self info hb]
    · rw [interceptRequest_info_of_headers self info hb hm (by simp [hs]), he]
      rfl
  refine ⟨?_, hinfo, ?_, ?_, ?_⟩
  · rw [hinfo]
    simp [callsSince]
  · rw [hinfo]
  · rw [hinfo]
  · rw [hinfo]

/-- C13, at the observer of the test `interceptRequest` and the load of
`qrc:///resources/__placeholder__`. -/
theorem observer_leaves_request_unmodified_witness :
    (TestRequestInterceptor.new false).shouldRedirect = false ∧
    (TestRequestInterceptor.new false).headers.isEmpty = true ∧
    placeholderInfo.requestMethod = "GET" ∧
    callsSince placeholderInfo
      ((TestRequestInterceptor.new false).interceptRequest placeholderInfo).info = [] ∧
    ((TestRequestInterceptor.new false).interceptRequest placeholderInfo).info
      = placeholderInfo :=
  ⟨rfl, rfl, by decide,
    (observer_leaves_request_unmodified (TestRequestInterceptor.new false) placeholderInfo
      rfl rfl (by decide)).1,
    (observer_leaves_request_unmodified (TestRequestInterceptor.new false) placeholderInfo
      rfl rfl (by decide)).2.1⟩

/-- C14: a call on a non-blob request appends exactly one entry to
`requestInfos`, built from the request as it is after the call (a blob request
appends none). When the call redirects, the entry records `kRedirectUrl`, which
is not the URL originally requested; when it does not, the entry records the
URL the request came with. -/
theorem recorded_requestUrl (self : TestRequestInterceptor)
    (info : QWebEngineUrlRequestInfo) :
    (self.interceptRequest info).interceptor.requestInfos
      = self.requestInfos ++
          (if info.requestUrl.scheme = "blob" then []
           else [RequestInfo.new (self.interceptRequest info).info]) ∧
    ((callsSince info (self.interceptRequest info).info).any InfoCall.isRedirect = true →
      ∃ entry : RequestInfo,
        (self.interceptRequest info).interceptor.requestInfos = self.requestInfos ++ [entry] ∧
        entry.requestUrl = kRedirectUrl ∧ entry.requestUrl ≠ info.requestUrl) ∧
    (info.requestUrl.scheme ≠ "blob" →
      (callsSince info (self.interceptRequest info).info).any InfoCall.isRedirect = false →
      ∃ entry : RequestInfo,
        (self.interceptRequest info).interceptor.requestInfos = self.requestInfos ++ [entry] ∧
        entry.requestUrl = info.requestUrl) := by
  have hhdr : ∀ l : List (QByteArray × QByteArray),
      (l.map (fun it => InfoCall.setHttpHeader it.1 it.2)).any InfoCall.isRedirect = false := by
    intro l
    induction l with
    | nil => rfl
    | cons e l ih => simp [InfoCall.isRedirect, ih]
  have hrec : (self.interceptRequest info).interceptor.requestInfos
      = self.requestInfos ++
          (if info.requestUrl.scheme = "blob" then []
           else [RequestInfo.new (self.interceptRequest info).info]) := by
    by_cases hb : info.requestUrl.scheme = "blob"
    · rw [interceptRequest_of_blob self info hb]
      simp [hb]
    · rw [interceptRequest_interceptor_of_not_blob self info hb]
      simp [hb]
  refine ⟨hrec, fun hred => ?_, fun hb hnot => ?_⟩
  · rw [callsSince_interceptRequest] at hred
    by_cases hb : info.requestUrl.scheme = "blob"
    · simp [hb] at hred
    · by_cases hm : info.requestMethod = "GET"
      · by_cases hr : self.shouldRedirect = true ∧ info.requestUrl ≠ kRedirectUrl
        · refine ⟨RequestInfo.new (self.interceptRequest info).info, ?_, ?_, ?_⟩
          · rw [hrec]; simp [hb]
          · rw [interceptRequest_info_of_redirect self info hb hm hr.1 hr.2]
            rfl
          · rw [interceptRequest_info_of_redirect self info hb hm hr.1 hr.2]
            exact fun h => hr.2 h.symm
        · simp only [hb, hm, hr, if_false, ne_eq, not_true_eq_false, hhdr,
            Bool.false_eq_true] at hred
      · simp [hb, hm, InfoCall.isRedirect] at hred
  · refine ⟨RequestInfo.new (self.interceptRequest info).info, ?_, ?_⟩
    · rw [hrec]; simp [hb]
    · rw [callsSince_interceptRequest] at hnot
      by_cases hm : info.requestMethod = "GET"
      · by_cases hr : self.shouldRedirect = true ∧ info.requestUrl ≠ kRedirectUrl
        · simp [hb, hm, hr, InfoCall.isRedirect] at hnot
        · rw [interceptRequest_info_of_headers self info hb hm hr]
          exact (foldl_setHttpHeader_frame _ info).1
      · rw [interceptRequest_info_of_not_get self info hb hm]
        rfl

/-- C14, at the test `requestedUrl`: after the load of
`qrc:///resources/__placeholder__` with redirecting on, `requestInfos.at(0)`
records `qrc:///resources/content.html`. -/
theorem recorded_requestUrl_witness :
    (callsSince placeholderInfo
      ((TestRequestInterceptor.new true).interceptRequest placeholderInfo).info).any
        InfoCall.isRedirect = true ∧
    ∃ entry : RequestInfo,
      ((TestRequestInterceptor.new true).interceptRequest placeholderInfo).interceptor.requestInfos
        = (TestRequestInterceptor.new true).requestInfos ++ [entry] ∧
      entry.requestUrl = kRedirectUrl ∧ entry.requestUrl ≠ placeholderInfo.requestUrl :=
  ⟨by decide,
    (recorded_requestUrl (TestRequestInterceptor.new true) placeholderInfo).2.1 (by decide)⟩

/-! ### Test interceptor: the initiator invariant -/

/-- Subscript after `insert`, at the inserted key. -/
theorem QMap.at_insert_self {κ α : Type} [DecidableEq κ] (m : QMap κ (QSet α)) (key : κ)
    (s : QSet α) : (m.insert key s).at key = s := by
  unfold QMap.at
  rw [QMap.value_insert_self]
  rfl

/-- Subscript after `insert`, at another key. -/
theorem QMap.at_insert_of_ne {κ α : Type} [DecidableEq κ] (m : QMap κ (QSet α)) (key key2 : κ)
    (s : QSet α) (h : key ≠ key2) : (m.insert key s).at key2 = m.at key2 := by
  unfold QMap.at
  rw [QMap.value_insert_of_ne m key key2 s h]

/-- Recording one more initiator keeps every initiator recorded before. -/
theorem contains_at_insert {κ α : Type} [DecidableEq κ] [DecidableEq α] (m : QMap κ (QSet α))
    (key key2 : κ) (x y : α) (h : (m.at key2).contains y = true) :
    ((m.insert key ((m.at key).insert x)).at key2).contains y = true := by
  by_cases hk : key = key2
  · subst hk
    rw [QMap.at_insert_self]
    exact QSet.contains_insert_of_contains _ x y h
  · rw [QMap.at_insert_of_ne m key key2 _ hk]
    exact h

/-- One call of `interceptRequest` preserves the initiator invariant. -/
theorem initiatorsRecorded_interceptRequest (self : TestRequestInterceptor)
    (info : QWebEngineUrlRequestInfo) (h : self.initiatorsRecorded = true) :
    (self.interceptRequest info).interceptor.initiatorsRecorded = true := by
  by_cases hb : info.requestUrl.scheme = "blob"
  · rw [interceptRequest_of_blob self info hb]
    exact h
  · rw [interceptRequest_interceptor_of_not_blob self info hb]
    unfold TestRequestInterceptor.initiatorsRecorded at h ⊢
    rw [List.all_eq_true] at h ⊢
    intro entry hentry
    simp only [List.mem_append, List.mem_singleton] at hentry
    rcases hentry with hold | hnew
    · exact contains_at_insert _ _ _ _ _ (h entry hold)
    · subst hnew
      simp only [RequestInfo.new]
      rw [QMap.at_insert_self]
      exact QSet.contains_insert_self _ _

/-- Any sequence of `interceptRequest` calls preserves the initiator invariant. -/
theorem initiatorsRecorded_interceptAll (infos : List QWebEngineUrlRequestInfo) :
    ∀ self : TestRequestInterceptor, self.initiatorsRecorded = true →
      (self.interceptAll infos).initiatorsRecorded = true := by
  induction infos with
  | nil => intro self h; exact h
  | cons info infos ih =>
    intro self h
    simp only [TestRequestInterceptor.interceptAll, List.foldl_cons] at ih ⊢
    exact ih _ (initiatorsRecorded_interceptRequest self info h)

/-- C15: in every state reached from a freshly constructed interceptor (with
any `shouldRedirect` and `headers`, and empty records) by a sequence of
`interceptRequest` calls, every entry of `requestInfos` has its
initiator in `requestInitiatorUrls[entry.requestUrl]`; a blob request leaves
the interceptor, and so both collections, as they were. -/
theorem initiators_recorded_invariant (redirect : Bool)
    (headers : QMap QByteArray QByteArray)
    (infos : List QWebEngineUrlRequestInfo) (self : TestRequestInterceptor)
    (blob : QWebEngineUrlRequestInfo) :
    (∀ entry ∈ (({ TestRequestInterceptor.new redirect with headers := headers } :
          TestRequestInterceptor).interceptAll infos).requestInfos,
      (((({ TestRequestInterceptor.new redirect with headers := headers } :
          TestRequestInterceptor).interceptAll infos).requestInitiatorUrls.at
        entry.requestUrl).contains entry.initiator) = true) ∧
    (blob.requestUrl.scheme = "blob" →
      (self.interceptRequest blob).interceptor.requestInfos = self.requestInfos ∧
      (self.interceptRequest blob).interceptor.requestInitiatorUrls
        = self.requestInitiatorUrls) := by
  refine ⟨?_, fun hb => ?_⟩
  · have h := initiatorsRecorded_interceptAll infos
      { TestRequestInterceptor.new redirect with headers := headers } rfl
    unfold TestRequestInterceptor.initiatorsRecorded at h
    rw [List.all_eq_true] at h
    exact h
  · rw [interceptRequest_of_blob self blob hb]
    exact ⟨rfl, rfl⟩

/-- C15, at a run of the test requests: the blob request adds nothing to the
records of an interceptor that has seen the placeholder load. -/
theorem initiators_recorded_invariant_witness :
    blobInfo.requestUrl.scheme = "blob" ∧
    ((((TestRequestInterceptor.new true).interceptAll [placeholderInfo]).interceptRequest
        blobInfo).interceptor.requestInfos
      = ((TestRequestInterceptor.new true).interceptAll [placeholderInfo]).requestInfos ∧
     (((TestRequestInterceptor.new true).interceptAll [placeholderInfo]).interceptRequest
        blobInfo).interceptor.requestInitiatorUrls
      = ((TestRequestInterceptor.new true).interceptAll [placeholderInfo]).requestInitiatorUrls) :=
  ⟨by decide,
    (initiators_recorded_invariant true QMap.nil [placeholderInfo]
      ((TestRequestInterceptor.new true).interceptAll [placeholderInfo]) blobInfo).2
      (by decide)⟩

/-! ### Fullscreen request: repeated calls -/

/-- The log of the recording callback after a sequence of calls: one entry per
call, `toggleOn` for an accept and its negation for a reject. -/
theorem resolveAll_recordCall (o : QUrl) (t : Bool) (cs : List Resolution) :
    ∀ log : List Bool,
      (QWebEngineFullScreenRequest.new o t recordCall).resolveAll cs log
        = log ++ cs.map (fun c => if c = Resolution.accept then t else !t) := by
  induction cs with
  | nil => intro log; simp [QWebEngineFullScreenRequest.resolveAll]
  | cons c cs ih =>
    intro log
    have h := ih ((QWebEngineFullScreenRequest.new o t recordCall).resolve c log)
    simp only [QWebEngineFullScreenRequest.resolveAll, List.foldl_cons] at h ⊢
    rw [h]
    cases c <;>
      simp [QWebEngineFullScreenRequest.resolve, QWebEngineFullScreenRequest.accept,
        QWebEngineFullScreenRequest.reject, QWebEngineFullScreenRequest.new, recordCall]

/-- A sequence of calls on a request with any callback: the callback is
applied once per call, in order. -/
theorem resolveAll_eq_foldl {σ : Type} (o : QUrl) (t : Bool) (f : Bool → σ → σ)
    (cs : List Resolution) :
    ∀ w : σ,
      (QWebEngineFullScreenRequest.new o t f).resolveAll cs w
        = (cs.map (fun c => if c = Resolution.accept then t else !t)).foldl
            (fun acc b => f b acc) w := by
  induction cs with
  | nil => intro w; rfl
  | cons c cs ih =>
    intro w
    have h := ih ((QWebEngineFullScreenRequest.new o t f).resolve c w)
    simp only [QWebEngineFullScreenRequest.resolveAll, List.foldl_cons, List.map_cons] at h ⊢
    rw [h]
    cases c <;> rfl

/-- C16: the request does not enforce single use: a sequence of `n` calls of
`accept()` and `reject()` invokes the callback exactly `n` times, the `k`-th
invocation receiving `toggleOn` for an accept and its negation for a reject,
whatever calls came before. -/
theorem every_call_invokes_callback {σ : Type} (o : QUrl) (t : Bool) (f : Bool → σ → σ)
    (cs : List Resolution) (w : σ) (log : List Bool) (k : Nat) :
    (QWebEngineFullScreenRequest.new o t recordCall).resolveAll cs log
      = log ++ cs.map (fun c => if c = Resolution.accept then t else !t) ∧
    ((QWebEngineFullScreenRequest.new o t recordCall).resolveAll cs []).length = cs.length ∧
    ((QWebEngineFullScreenRequest.new o t recordCall).resolveAll cs [])[k]?
      = (cs[k]?).map (fun c => if c = Resolution.accept then t else !t) ∧
    (QWebEngineFullScreenRequest.new o t f).resolveAll cs w
      = (cs.map (fun c => if c = Resolution.accept then t else !t)).foldl
          (fun acc b => f b acc) w := by
  refine ⟨resolveAll_recordCall o t cs log, ?_, ?_, resolveAll_eq_foldl o t f cs w⟩
  · rw [resolveAll_recordCall]
    simp
  · rw [resolveAll_recordCall]
    simp

/-! ### Test interceptor: the final assertion and the kinds of action -/

/-- C17: on a non-blob request that is unchanged on entry the final assertion
is reached and holds: `info.changed()` equals
`block || redirect || !headers.empty()`, for every method, URL,
`shouldRedirect` and `headers`. -/
theorem assertion_never_fails (self : TestRequestInterceptor)
    (info : QWebEngineUrlRequestInfo) (hb : info.requestUrl.scheme ≠ "blob")
    (hc : info.changed = false) :
    (self.interceptRequest info).assertion = some true ∧
    (self.interceptRequest info).info.changed
      = (info.requestMethod != "GET" ||
          (self.shouldRedirect && info.requestUrl != kRedirectUrl) ||
          !self.headers.isEmpty) := by
  have hc2 : info.d_changed = false := hc
  by_cases hm : info.requestMethod = "GET"
  · by_cases hr : self.shouldRedirect = true ∧ info.requestUrl ≠ kRedirectUrl
    · have hi := interceptRequest_info_of_redirect self info hb hm hr.1 hr.2
      constructor
      · unfold TestRequestInterceptor.interceptRequest
        simp [hb, hm, hr, QWebEngineUrlRequestInfo.redirect, QWebEngineUrlRequestInfo.changed]
      · rw [hi]
        simp [hm, hr, QWebEngineUrlRequestInfo.redirect, QWebEngineUrlRequestInfo.changed]
    · have hr2 : (self.shouldRedirect && info.requestUrl != kRedirectUrl) = false := by
        simpa using hr
      have hi := interceptRequest_info_of_headers self info hb hm hr
      constructor
      · unfold TestRequestInterceptor.interceptRequest
        simp only [hb, hm, hr2, if_false, bne_self_eq_false, Bool.false_eq_true,
          QWebEngineUrlRequestInfo.changed, foldl_setHttpHeader_changed, hc2, Bool.false_or,
          QMap.isEmpty, beq_self_eq_true]
      · rw [hi]
        simp only [QWebEngineUrlRequestInfo.changed, foldl_setHttpHeader_changed, hc2, hm, hr2,
          Bool.false_or, bne_self_eq_false, QMap.isEmpty]
  · have hi := interceptRequest_info_of_not_get self info hb hm
    constructor
    · unfold TestRequestInterceptor.interceptRequest
      simp [hb, hm, QWebEngineUrlRequestInfo.block, QWebEngineUrlRequestInfo.changed]
    · rw [hi]
      simp [hm, QWebEngineUrlRequestInfo.block, QWebEngineUrlRequestInfo.changed]

/-- C17, at the requests of the tests: the assertion holds for the blocked
POST, the redirected placeholder load and the referer-header load. -/
theorem assertion_never_fails_witness :
    postInfo.requestUrl.scheme ≠ "blob" ∧ postInfo.changed = false ∧
    ((TestRequestInterceptor.new false).interceptRequest postInfo).assertion = some true ∧
    ((TestRequestInterceptor.new true).interceptRequest placeholderInfo).assertion = some true ∧
    (refererInterceptor.interceptRequest httpInfo).assertion = some true :=
  ⟨by decide, rfl,
    (assertion_never_fails (TestRequestInterceptor.new false) postInfo (by decide) rfl).1,
    (assertion_never_fails (TestRequestInterceptor.new true) placeholderInfo (by decide) rfl).1,
    (assertion_never_fails refererInterceptor httpInfo (by decide) rfl).1⟩

/-- C18: one call of `interceptRequest` performs at most one kind of action:
it never both blocks and redirects, and never sets headers on a request it
blocks or redirects. Block has priority: a non-blob request with a method other
than GET gets `block(true)` alone, whatever `shouldRedirect` and `headers` are;
redirect has priority over headers: a non-blob GET request to be redirected
gets `redirect(kRedirectUrl)` alone, whatever `headers` is. -/
theorem at_most_one_kind_of_action (self : TestRequestInterceptor)
    (info : QWebEngineUrlRequestInfo) :
    ¬ ((callsSince info (self.interceptRequest info).info).any InfoCall.isBlock = true ∧
        (callsSince info (self.interceptRequest info).info).any InfoCall.isRedirect = true) ∧
    ¬ ((callsSince info (self.interceptRequest info).info).any InfoCall.isBlock = true ∧
        (callsSince info (self.interceptRequest info).info).any InfoCall.isSetHttpHeader
          = true) ∧
    ¬ ((callsSince info (self.interceptRequest info).info).any InfoCall.isRedirect = true ∧
        (callsSince info (self.interceptRequest info).info).any InfoCall.isSetHttpHeader
          = true) ∧
    (info.requestUrl.scheme ≠ "blob" → info.requestMethod ≠ "GET" →
      callsSince info (self.interceptRequest info).info = [InfoCall.block true]) ∧
    (info.requestUrl.scheme ≠ "blob" → info.requestMethod = "GET" →
      self.shouldRedirect = true → info.requestUrl ≠ kRedirectUrl →
      callsSince info (self.interceptRequest info).info = [InfoCall.redirect kRedirectUrl]) := by
  have hhdr : ∀ l : List (QByteArray × QByteArray),
      (l.map (fun it => InfoCall.setHttpHeader it.1 it.2)).any InfoCall.isRedirect = false ∧
      (l.map (fun it => InfoCall.setHttpHeader it.1 it.2)).any InfoCall.isBlock = false := by
    intro l
    induction l with
    | nil => exact ⟨rfl, rfl⟩
    | cons e l ih => simp [InfoCall.isRedirect, InfoCall.isBlock, ih.1, ih.2]
  have hcalls := callsSince_interceptRequest self info
  refine ⟨?_, ?_, ?_, fun hb hm => ?_, fun hb hm hs hu => ?_⟩
  · rw [hcalls]
    by_cases hb : info.requestUrl.scheme = "blob"
    · simp [hb]
    · by_cases hm : info.requestMethod = "GET"
      · by_cases hr : self.shouldRedirect = true ∧ info.requestUrl ≠ kRedirectUrl
        · simp [hb, hm, hr, InfoCall.isBlock]
        · simp only [hb, hm, hr, if_false, ne_eq, not_true_eq_false, (hhdr _).1,
            Bool.false_eq_true, and_false, not_false_eq_true]
      · simp [hb, hm, InfoCall.isRedirect]
  · rw [hcalls]
    by_cases hb : info.requestUrl.scheme = "blob"
    · simp [hb]
    · by_cases hm : info.requestMethod = "GET"
      · by_cases hr : self.shouldRedirect = true ∧ info.requestUrl ≠ kRedirectUrl
        · simp [hb, hm, hr, InfoCall.isBlock]
        · simp only [hb, hm, hr, if_false, ne_eq, not_true_eq_false, (hhdr _).2,
            Bool.false_eq_true, false_and, not_false_eq_true]
      · simp [hb, hm, InfoCall.isSetHttpHeader]
  · rw [hcalls]
    by_cases hb : info.requestUrl.scheme = "blob"
    · simp [hb]
    · by_cases hm : info.requestMethod = "GET"
      · by_cases hr : self.shouldRedirect = true ∧ info.requestUrl ≠ kRedirectUrl
        · simp [hb, hm, hr, InfoCall.isSetHttpHeader]
        · simp only [hb, hm, hr, if_false, ne_eq, not_true_eq_false, (hhdr _).1,
            Bool.false_eq_true, false_and, not_false_eq_true]
      · simp [hb, hm, InfoCall.isRedirect]
  · rw [hcalls]
    simp [hb, hm]
  · rw [hcalls]
    simp [hb, hm, hs, hu]

/-- C18, at a POST request offered to an interceptor with redirecting on and a
header to set: the request is blocked and nothing else is done to it. -/
theorem at_most_one_kind_of_action_witness :
    postInfo.requestUrl.scheme ≠ "blob" ∧ postInfo.requestMethod ≠ "GET" ∧
    ({ refererInterceptor with shouldRedirect := true } : TestRequestInterceptor).shouldRedirect
      = true ∧
    postInfo.requestUrl ≠ kRedirectUrl ∧
    callsSince postInfo
      (({ refererInterceptor with shouldRedirect := true } :
        TestRequestInterceptor).interceptRequest postInfo).info = [InfoCall.block true] :=
  ⟨by decide, by decide, rfl, by decide,
    (at_most_one_kind_of_action { refererInterceptor with shouldRedirect := true }
      postInfo).2.2.2.1 (by decide) (by decide)⟩

/-! ### URL request job: forwarding -/

/-- Over the recording delegate every resolving call of a sequence arrives, in
order and with its arguments. -/
theorem callAll_recordingDelegate (underlying : QWebEngineUrlRequestJob.Error → Int)
    (url initiator : QUrl) (method : QByteArray) (headers : QMap QByteArray QByteArray)
    (cs : List JobCall) :
    ∀ log : List DelegateCall,
      (QWebEngineUrlRequestJob.mk (recordingDelegate url method initiator headers)).callAll
          underlying cs log
        = log ++ cs.map (JobCall.toDelegateCall underlying) := by
  induction cs with
  | nil => intro log; simp [QWebEngineUrlRequestJob.callAll]
  | cons c cs ih =>
    intro log
    simp only [QWebEngineUrlRequestJob.callAll, List.foldl_cons, List.map_cons] at ih ⊢
    rw [ih]
    cases c <;>
      simp [QWebEngineUrlRequestJob.call, QWebEngineUrlRequestJob.reply,
        QWebEngineUrlRequestJob.fail, QWebEngineUrlRequestJob.redirect, recordingDelegate,
        JobCall.toDelegateCall]

/-- C19: `reply(contentType, device)` is exactly one call of the delegate
member `reply` with the same arguments and `redirect(url)` exactly one call of
the delegate member `redirect` with the same URL; nothing else decides the
resulting state, and no call is held back: over a recording delegate every
call of any sequence arrives, whatever calls came before. -/
theorem job_transparent_wrapper {δ : Type} (job : QWebEngineUrlRequestJob δ)
    (underlying : QWebEngineUrlRequestJob.Error → Int)
    (contentType : QByteArray) (device : QIODevice) (target : QUrl) (s : δ)
    (url initiator : QUrl) (method : QByteArray) (headers : QMap QByteArray QByteArray)
    (cs : List JobCall) (log : List DelegateCall) :
    job.reply contentType device s = job.d_ptr.reply contentType device s ∧
    job.redirect target s = job.d_ptr.redirect target s ∧
    (QWebEngineUrlRequestJob.mk (recordingDelegate url method initiator headers)).reply
        contentType device log = log ++ [DelegateCall.reply contentType device] ∧
    (QWebEngineUrlRequestJob.mk (recordingDelegate url method initiator headers)).redirect
        target log = log ++ [DelegateCall.redirect target] ∧
    (QWebEngineUrlRequestJob.mk (recordingDelegate url method initiator headers)).callAll
        underlying cs log = log ++ cs.map (JobCall.toDelegateCall underlying) :=
  ⟨rfl, rfl, rfl, rfl, callAll_recordingDelegate underlying url initiator method headers cs log⟩

/-! ### Test interceptor: queries by resource type -/

/-- The loop of `getUrlRequestForType`, started with any accumulated list. -/
theorem getUrlRequestForType_loop (self : TestRequestInterceptor) (type : ResourceType)
    (l : List RequestInfo) :
    ∀ infos : List RequestInfo,
      l.foldl
          (fun infos requestInfo =>
            if self.shouldSkipRequest requestInfo then infos
            else if type = requestInfo.resourceType then infos ++ [requestInfo]
            else infos)
          infos
        = infos ++ l.filter
            (fun requestInfo =>
              !self.shouldSkipRequest requestInfo && decide (requestInfo.resourceType = type)) := by
  induction l with
  | nil => intro infos; simp
  | cons e l ih =>
    intro infos
    simp only [List.foldl_cons]
    rw [ih]
    by_cases hs : self.shouldSkipRequest e = true
    · simp [hs, List.filter_cons]
    · by_cases ht : type = e.resourceType
      · simp [hs, ht, List.filter_cons]
      · have ht2 : ¬ e.resourceType = type := fun h => ht h.symm
        simp [hs, ht, ht2, List.filter_cons]

/-- C20: `getUrlRequestForType(t)` returns exactly the recorded entries of
type `t` that `shouldSkipRequest` does not skip, in recorded order and with
their multiplicity; `shouldSkipRequest` skips an entry exactly when its type is
neither MainFrame nor SubFrame and its first-party URL is the empty URL, so a
MainFrame or SubFrame entry is never skipped. -/
theorem getUrlRequestForType_eq_filter (self : TestRequestInterceptor) (t : ResourceType)
    (entry : RequestInfo) :
    self.getUrlRequestForType t
      = self.requestInfos.filter
          (fun requestInfo =>
            !self.shouldSkipRequest requestInfo && decide (requestInfo.resourceType = t)) ∧
    (self.shouldSkipRequest entry = true ↔
      (entry.resourceType ≠ ResourceType.ResourceTypeMainFrame ∧
        entry.resourceType ≠ ResourceType.ResourceTypeSubFrame ∧
        entry.firstPartyUrl = QUrl.empty)) ∧
    ((entry.resourceType = ResourceType.ResourceTypeMainFrame ∨
        entry.resourceType = ResourceType.ResourceTypeSubFrame) →
      self.shouldSkipRequest entry = false) := by
  refine ⟨?_, ?_, ?_⟩
  · unfold TestRequestInterceptor.getUrlRequestForType
    rw [getUrlRequestForType_loop]
    simp
  · unfold TestRequestInterceptor.shouldSkipRequest
    by_cases h : entry.resourceType = ResourceType.ResourceTypeMainFrame ∨
        entry.resourceType = ResourceType.ResourceTypeSubFrame
    · rcases h with h | h <;> simp [h]
    · have h2 := not_or.mp h
      simp [h, h2.1, h2.2]
  · intro h
    unfold TestRequestInterceptor.shouldSkipRequest
    simp [h]

/-- C20, at a main-frame entry without first-party URL: it is not skipped. -/
theorem getUrlRequestForType_eq_filter_witness :
    (RequestInfo.mk indexUrl QUrl.empty QUrl.empty
        ResourceType.ResourceTypeMainFrame).resourceType = ResourceType.ResourceTypeMainFrame ∧
    (TestRequestInterceptor.new false).shouldSkipRequest
        (RequestInfo.mk indexUrl QUrl.empty QUrl.empty ResourceType.ResourceTypeMainFrame)
      = false :=
  ⟨rfl,
    (getUrlRequestForType_eq_filter (TestRequestInterceptor.new false)
      ResourceType.ResourceTypeMainFrame
      (RequestInfo.mk indexUrl QUrl.empty QUrl.empty ResourceType.ResourceTypeMainFrame)).2.2
      (Or.inl rfl)⟩

/-- The loop of `hasUrlRequestForType` finds an entry exactly when some
remaining entry is not skipped and has the type. -/
theorem hasUrlRequestForTypeFrom_eq_any (self : TestRequestInterceptor) (type : ResourceType)
    (l : List RequestInfo) :
    self.hasUrlRequestForTypeFrom type l
      = l.any
          (fun requestInfo =>
            !self.shouldSkipRequest requestInfo && decide (requestInfo.resourceType = type)) := by
  induction l with
  | nil => rfl
  | cons e l ih =>
    unfold TestRequestInterceptor.hasUrlRequestForTypeFrom
    rw [ih]
    by_cases hs : self.shouldSkipRequest e = true
    · simp [hs]
    · by_cases ht : type = e.resourceType
      · simp [hs, ht]
      · have ht2 : ¬ e.resourceType = type := fun h => ht h.symm
        simp [hs, ht, ht2]

/-- C21: for every list of recorded entries and every resource type `t`,
`hasUrlRequestForType(t)` returns true if and only if
`getUrlRequestForType(t)` is not empty. -/
theorem hasUrlRequestForType_iff_get_nonempty (self : TestRequestInterceptor)
    (t : ResourceType) :
    (self.hasUrlRequestForType t = true ↔ self.getUrlRequestForType t ≠ []) ∧
    self.hasUrlRequestForType t = !(self.getUrlRequestForType t).isEmpty := by
  have hget : self.getUrlRequestForType t
      = self.requestInfos.filter
          (fun requestInfo =>
            !self.shouldSkipRequest requestInfo && decide (requestInfo.resourceType = t)) := by
    unfold TestRequestInterceptor.getUrlRequestForType
    rw [getUrlRequestForType_loop]
    simp
  have hhas : self.hasUrlRequestForType t
      = self.requestInfos.any
          (fun requestInfo =>
            !self.shouldSkipRequest requestInfo && decide (requestInfo.resourceType = t)) :=
    hasUrlRequestForTypeFrom_eq_any self t self.requestInfos
  have hiff : self.hasUrlRequestForType t = true ↔ self.getUrlRequestForType t ≠ [] := by
    rw [hget, hhas, List.any_eq_true, ne_eq, List.filter_eq_nil_iff]
    constructor
    · rintro ⟨x, hx, hp⟩ hall
      exact hall x hx hp
    · intro hnot
      by_contra hex
      exact hnot (fun x hx hp => hex ⟨x, hx, hp⟩)
  refine ⟨hiff, ?_⟩
  cases hh : self.hasUrlRequestForType t
  · have hne : ¬ self.getUrlRequestForType t ≠ [] := fun h => by
      have := hiff.mpr h
      rw [hh] at this
      exact Bool.noConfusion this
    have heq : self.getUrlRequestForType t = [] := not_not.mp hne
    rw [heq]
    rfl
  · have hne := hiff.mp hh
    cases hg : self.getUrlRequestForType t with
    | nil => exact absurd hg hne
    | cons a l => rfl

end QtWebEngine
